import Mathlib

/-!
# Verification of the input-event reader core (`libs/ui/InputReader.cpp`)

This file gives a shallow embedding, in Lean 4, of the parts of the input
reader that the specification's claims are about:

* key-code rotation and meta-state bookkeeping (`rotateKeyCode`,
  `updateMetaState`);
* the multi-touch accumulator state machine driven by `SYN_MT_REPORT` /
  `SYN_REPORT` (`handleMTSync`, `handleSyncReport`);
* multi-touch pointer assembly (`onMultiTouchScreenStateChanged`);
* touch dispatch and pointer up/down splitting (`dispatchTouches`);
* the virtual-key state machine (`consumeVirtualKeyTouches`,
  `dispatchVirtualKey`) and the exported virtual-key state
  (`updateExportedVirtualKeyState`, `getCurrentScanCodeState`,
  `getCurrentKeyCodeState`).

Machine integers (`int32_t`, `uint32_t`) are modelled as `Int` or as `Nat`
bit patterns; the 32-bit `BitSet32` pointer-id set is modelled as a `Nat`
whose bit `i` corresponds to pointer id `i` (the enumeration order of
`firstMarkedBit`, lowest id first, is preserved).  External collaborators
(event source, policy, dispatcher, and the `InputDevice` helper methods
that are implemented outside this translation unit, such as the touch
filters and `findVirtualKeyHit`) are parameters of the embedded functions,
and dispatcher calls are recorded in explicit effect lists.
-/

namespace InputReaderModel

/-! ## Constants

Numeric constants referenced by `InputReader.cpp` but defined in headers
outside this file (`android/keycodes.h`, `ui/Input.h`, `ui/InputReader.h`,
`ui/EventHub.h`).  Their concrete values are the standard Android ones; the
claims below depend only on the ones the source manipulates directly.
-/

def AKEYCODE_DPAD_UP : Int := 19
def AKEYCODE_DPAD_DOWN : Int := 20
def AKEYCODE_DPAD_LEFT : Int := 21
def AKEYCODE_DPAD_RIGHT : Int := 22
def AKEYCODE_ALT_LEFT : Int := 57
def AKEYCODE_ALT_RIGHT : Int := 58
def AKEYCODE_SHIFT_LEFT : Int := 59
def AKEYCODE_SHIFT_RIGHT : Int := 60
def AKEYCODE_SYM : Int := 63

def META_SHIFT_ON : Nat := 1
def META_ALT_ON : Nat := 2
def META_SYM_ON : Nat := 4
def META_ALT_LEFT_ON : Nat := 16
def META_ALT_RIGHT_ON : Nat := 32
def META_SHIFT_LEFT_ON : Nat := 64
def META_SHIFT_RIGHT_ON : Nat := 128

def ROTATION_0 : Nat := 0
def ROTATION_90 : Nat := 1
def ROTATION_180 : Nat := 2
def ROTATION_270 : Nat := 3

def KEY_STATE_VIRTUAL : Int := 2

/-- `MAX_POINTERS` from `ui/InputReader.h`; the spec gives the typical
value 10.  The claims about it depend only on its being a fixed bound. -/
def MAX_POINTERS : Nat := 10

/-- `MAX_POINTER_ID` from `ui/InputReader.h` (31, ids must fit `BitSet32`). -/
def MAX_POINTER_ID : Nat := 31

def MOTION_EVENT_ACTION_DOWN : Nat := 0
def MOTION_EVENT_ACTION_UP : Nat := 1
def MOTION_EVENT_ACTION_MOVE : Nat := 2
def MOTION_EVENT_ACTION_POINTER_DOWN : Nat := 5
def MOTION_EVENT_ACTION_POINTER_UP : Nat := 6
def MOTION_EVENT_ACTION_POINTER_INDEX_SHIFT : Nat := 8

def KEY_EVENT_ACTION_DOWN : Int := 0
def KEY_EVENT_ACTION_UP : Int := 1
def KEY_EVENT_FLAG_WOKE_HERE : Nat := 1
def KEY_EVENT_FLAG_FROM_SYSTEM : Nat := 8
def KEY_EVENT_FLAG_VIRTUAL_HARD_KEY : Nat := 64
def KEY_EVENT_FLAG_CANCELED : Nat := 32

def ACTION_DISPATCH : Nat := 1
def ACTION_APP_SWITCH_COMING : Nat := 2
def ACTION_WOKE_HERE : Nat := 4
def ACTION_BRIGHT_HERE : Nat := 8

def POLICY_FLAG_WOKE_HERE : Nat := 268435456
def POLICY_FLAG_BRIGHT_HERE : Nat := 536870912

/-! ## `BitSet32` (ui/InputReader.h)

The 32-bit pointer-id set.  A value is modelled as the `Nat` whose bit `i`
(least significant first) stands for pointer id `i`; `firstMarkedBit`
returns the smallest marked id, exactly as the count-leading-zeros
implementation does under the header's id-to-bit numbering.  `clearBit`
(`value &= ~mask`) is and-with-complement, written `n ^^^ (n &&& mask)`
because `Nat` has no complement. -/

/-- Bitwise and-with-complement `n & ~m` on bit patterns (`Nat` has no
complement, so it is written `n ^^^ (n &&& m)`, which clears from `n`
exactly the bits of `m`). -/
def andNot (n m : Nat) : Nat := n ^^^ (n &&& m)

lemma testBit_andNot (n m j : Nat) :
    (andNot n m).testBit j = (n.testBit j && !(m.testBit j)) := by
  simp only [andNot, Nat.testBit_xor, Nat.testBit_land]
  cases n.testBit j <;> cases m.testBit j <;> rfl

def markBit (n i : Nat) : Nat := n ||| (1 <<< i)

def clearBit (n i : Nat) : Nat := n ^^^ (n &&& (1 <<< i))

lemma clearBit_eq_andNot (n i : Nat) : clearBit n i = andNot n (1 <<< i) := rfl

def firstMarkedBit (n : Nat) : Nat :=
  if n = 0 then 0
  else if n % 2 = 1 then 0
  else firstMarkedBit (n / 2) + 1
termination_by n
decreasing_by exact Nat.div_lt_self (Nat.pos_of_ne_zero (by assumption)) (by norm_num)

/-- The ascending list of marked ids of a bit set; the order in which
`while (!bits.isEmpty()) { id = bits.firstMarkedBit(); bits.clearBit(id); }`
visits them. -/
def natBits (n : Nat) : List Nat :=
  if n = 0 then []
  else if n % 2 = 1 then 0 :: (natBits (n / 2)).map (· + 1)
  else (natBits (n / 2)).map (· + 1)
termination_by n
decreasing_by
  all_goals exact Nat.div_lt_self (Nat.pos_of_ne_zero (by assumption)) (by norm_num)

lemma testBit_one_shiftLeft (i j : Nat) :
    (1 <<< i : Nat).testBit j = decide (i = j) := by
  rw [Nat.shiftLeft_eq, one_mul]
  by_cases h : i = j
  · subst h; simp
  · simp [Nat.testBit_two_pow_of_ne h, h]

lemma testBit_markBit (n i j : Nat) :
    (markBit n i).testBit j = (n.testBit j || decide (i = j)) := by
  simp only [markBit, Nat.testBit_lor, testBit_one_shiftLeft]

lemma testBit_clearBit (n i j : Nat) :
    (clearBit n i).testBit j = (n.testBit j && !(decide (i = j))) := by
  simp only [clearBit, Nat.testBit_xor, Nat.testBit_land, testBit_one_shiftLeft]
  cases hn : n.testBit j <;> cases hd : (decide (i = j)) <;> rfl

lemma firstMarkedBit_zero : firstMarkedBit 0 = 0 := by
  unfold firstMarkedBit; rfl

lemma firstMarkedBit_odd {n : Nat} (h : n % 2 = 1) : firstMarkedBit n = 0 := by
  unfold firstMarkedBit
  have hn : n ≠ 0 := by omega
  simp [hn, h]

lemma firstMarkedBit_even {n : Nat} (h : n % 2 = 0) (hn : n ≠ 0) :
    firstMarkedBit n = firstMarkedBit (n / 2) + 1 := by
  rw [firstMarkedBit]
  simp [hn, h]

lemma testBit_firstMarkedBit {n : Nat} (hn : n ≠ 0) :
    n.testBit (firstMarkedBit n) = true := by
  induction n using Nat.strong_induction_on with
  | _ n ih =>
    rcases Nat.even_or_odd n with he | ho
    · have h2 : n % 2 = 0 := Nat.even_iff.mp he
      have hhalf : n / 2 ≠ 0 := by omega
      rw [firstMarkedBit_even h2 hn, Nat.testBit_succ]
      exact ih (n / 2) (Nat.div_lt_self (Nat.pos_of_ne_zero hn) (by norm_num)) hhalf
    · have h2 : n % 2 = 1 := Nat.odd_iff.mp ho
      rw [firstMarkedBit_odd h2, Nat.testBit_zero]
      simp [h2]

lemma testBit_lt_firstMarkedBit {n j : Nat} (hj : j < firstMarkedBit n) :
    n.testBit j = false := by
  induction n using Nat.strong_induction_on generalizing j with
  | _ n ih =>
    by_cases hn : n = 0
    · subst hn; simp
    rcases Nat.even_or_odd n with he | ho
    · have h2 : n % 2 = 0 := Nat.even_iff.mp he
      rw [firstMarkedBit_even h2 hn] at hj
      match j with
      | 0 => rw [Nat.testBit_zero]; simp [h2]
      | j + 1 =>
        rw [Nat.testBit_succ]
        exact ih (n / 2) (Nat.div_lt_self (Nat.pos_of_ne_zero hn) (by norm_num))
          (by omega)
    · have h2 : n % 2 = 1 := Nat.odd_iff.mp ho
      rw [firstMarkedBit_odd h2] at hj
      omega

lemma clearBit_lt {n i : Nat} (h : n.testBit i = true) : clearBit n i < n := by
  refine Nat.lt_of_testBit i ?_ h ?_
  · rw [testBit_clearBit]; simp
  · intro j hj
    rw [testBit_clearBit]
    have : decide (i = j) = false := by simp; omega
    simp [this]

lemma clearBit_firstMarkedBit_lt {n : Nat} (hn : n ≠ 0) :
    clearBit n (firstMarkedBit n) < n :=
  clearBit_lt (testBit_firstMarkedBit hn)

lemma natBits_zero : natBits 0 = [] := by unfold natBits; rfl

lemma natBits_two_mul (k : Nat) : natBits (2 * k) = (natBits k).map (· + 1) := by
  by_cases hk : k = 0
  · subst hk; simp [natBits_zero]
  · rw [natBits]
    have h1 : 2 * k ≠ 0 := by omega
    have h2 : 2 * k % 2 = 0 := by omega
    simp [h1, h2, Nat.mul_div_cancel_left _ (by norm_num : 0 < 2)]

lemma clearBit_zero_odd {n : Nat} (h : n % 2 = 1) :
    clearBit n 0 = 2 * (n / 2) := by
  refine Nat.eq_of_testBit_eq fun j => ?_
  rw [testBit_clearBit]
  match j with
  | 0 =>
    have h2 : (2 * (n / 2)).testBit 0 = false := by
      rw [Nat.testBit_zero]
      simp only [decide_eq_false_iff_not]
      omega
    rw [h2]
    simp
  | j + 1 =>
    rw [Nat.testBit_succ, Nat.testBit_succ,
      Nat.mul_div_cancel_left _ (by norm_num : 0 < 2)]
    have hd : decide ((0 : Nat) = j + 1) = false := by
      simp only [decide_eq_false_iff_not]
      omega
    rw [hd]
    simp

lemma clearBit_succ_even {n i : Nat} (h : n % 2 = 0) :
    clearBit n (i + 1) = 2 * clearBit (n / 2) i := by
  refine Nat.eq_of_testBit_eq fun j => ?_
  rw [testBit_clearBit]
  match j with
  | 0 =>
    have h1 : n.testBit 0 = false := by
      rw [Nat.testBit_zero]
      simp only [decide_eq_false_iff_not]
      omega
    have h2 : (2 * clearBit (n / 2) i).testBit 0 = false := by
      rw [Nat.testBit_zero]
      simp only [decide_eq_false_iff_not]
      omega
    rw [h1, h2]
    simp
  | j + 1 =>
    rw [Nat.testBit_succ, Nat.testBit_succ,
      Nat.mul_div_cancel_left _ (by norm_num : 0 < 2), testBit_clearBit]
    have hd : decide (i + 1 = j + 1) = decide (i = j) := by
      rw [decide_eq_decide]
      omega
    rw [hd]

/-- The while-loop order: `natBits` of a non-empty set is its first marked
bit followed by `natBits` of the set with that bit cleared. -/
lemma natBits_eq_cons {n : Nat} (hn : n ≠ 0) :
    natBits n = firstMarkedBit n :: natBits (clearBit n (firstMarkedBit n)) := by
  induction n using Nat.strong_induction_on with
  | _ n ih =>
    rcases Nat.even_or_odd n with he | ho
    · have h2 : n % 2 = 0 := Nat.even_iff.mp he
      have hhalf : n / 2 ≠ 0 := by omega
      rw [firstMarkedBit_even h2 hn, clearBit_succ_even h2, natBits_two_mul]
      have hrec := ih (n / 2) (Nat.div_lt_self (Nat.pos_of_ne_zero hn) (by norm_num)) hhalf
      conv_lhs => rw [natBits]
      simp only [hn, if_false, h2]
      rw [if_neg (by omega), hrec]
      simp
    · have h2 : n % 2 = 1 := Nat.odd_iff.mp ho
      rw [firstMarkedBit_odd h2, clearBit_zero_odd h2, natBits_two_mul]
      conv_lhs => rw [natBits]
      simp only [hn, if_false, h2, if_pos]

lemma natBits_of_odd {n : Nat} (hn : n ≠ 0) (h2 : n % 2 = 1) :
    natBits n = 0 :: (natBits (n / 2)).map (· + 1) := by
  conv_lhs => rw [natBits]
  simp only [hn, if_false, h2, if_pos]

lemma natBits_of_even {n : Nat} (hn : n ≠ 0) (h2 : n % 2 = 0) :
    natBits n = (natBits (n / 2)).map (· + 1) := by
  conv_lhs => rw [natBits]
  simp only [hn, if_false, h2]
  rw [if_neg (by omega)]

lemma mem_natBits {n i : Nat} : i ∈ natBits n ↔ n.testBit i = true := by
  induction n using Nat.strong_induction_on generalizing i with
  | _ n ih =>
    by_cases hn : n = 0
    · subst hn; simp [natBits_zero]
    have ihhalf : ∀ j : Nat, (j ∈ natBits (n / 2) ↔ (n / 2).testBit j = true) :=
      fun j => ih (n / 2) (Nat.div_lt_self (Nat.pos_of_ne_zero hn) (by norm_num))
    rcases Nat.even_or_odd n with he | ho
    · have h2 : n % 2 = 0 := Nat.even_iff.mp he
      rw [natBits_of_even hn h2]
      match i with
      | 0 =>
        have hb : n.testBit 0 = false := by
          rw [Nat.testBit_zero]
          simp only [decide_eq_false_iff_not]
          omega
        simp [hb]
      | i + 1 =>
        rw [Nat.testBit_succ]
        simp only [List.mem_map]
        constructor
        · rintro ⟨j, hj, hji⟩
          have hje : j = i := by omega
          exact hje ▸ (ihhalf j).mp hj
        · intro h
          exact ⟨i, (ihhalf i).mpr h, rfl⟩
    · have h2 : n % 2 = 1 := Nat.odd_iff.mp ho
      rw [natBits_of_odd hn h2]
      match i with
      | 0 =>
        have hb : n.testBit 0 = true := by
          rw [Nat.testBit_zero]
          simp [h2]
        simp [hb]
      | i + 1 =>
        rw [Nat.testBit_succ]
        simp only [List.mem_cons, List.mem_map]
        constructor
        · rintro (h | ⟨j, hj, hji⟩)
          · omega
          · have hje : j = i := by omega
            exact hje ▸ (ihhalf j).mp hj
        · intro h
          exact Or.inr ⟨i, (ihhalf i).mpr h, rfl⟩

/-! ## `updateMetaState` (InputReader.cpp lines 59-93)

The meta state is an `int32_t` bitmask; it is modelled as the `Nat` whose
binary digits are the bits of that mask.  The C expression
`oldMetaState & ~mask & ~(META_ALT_ON | META_SHIFT_ON)` is bitwise
and-with-complement, i.e. `Nat.ldiff`. -/

/-- First fix-up after toggling a mask: re-derive the combined ALT bit. -/
def metaFixAlt (s : Nat) : Nat :=
  if s &&& (META_ALT_LEFT_ON ||| META_ALT_RIGHT_ON) ≠ 0 then s ||| META_ALT_ON else s

/-- Second fix-up: re-derive the combined SHIFT bit. -/
def metaFixShift (s : Nat) : Nat :=
  if s &&& (META_SHIFT_LEFT_ON ||| META_SHIFT_RIGHT_ON) ≠ 0 then s ||| META_SHIFT_ON
  else s

/-- The body after the `switch` has selected `mask`: set or clear the bit
(clearing also drops both combined bits), then run the two fix-ups. -/
def applyMetaMask (down : Bool) (oldMetaState mask : Nat) : Nat :=
  metaFixShift (metaFixAlt
    (if down then oldMetaState ||| mask
     else andNot (andNot oldMetaState mask) (META_ALT_ON ||| META_SHIFT_ON)))

def updateMetaState (keyCode : Int) (down : Bool) (oldMetaState : Nat) : Nat :=
  if keyCode = AKEYCODE_ALT_LEFT then applyMetaMask down oldMetaState META_ALT_LEFT_ON
  else if keyCode = AKEYCODE_ALT_RIGHT then applyMetaMask down oldMetaState META_ALT_RIGHT_ON
  else if keyCode = AKEYCODE_SHIFT_LEFT then applyMetaMask down oldMetaState META_SHIFT_LEFT_ON
  else if keyCode = AKEYCODE_SHIFT_RIGHT then applyMetaMask down oldMetaState META_SHIFT_RIGHT_ON
  else if keyCode = AKEYCODE_SYM then applyMetaMask down oldMetaState META_SYM_ON
  else oldMetaState

/-- The invariant of spec section 8: each combined modifier bit is set
exactly when one of its left/right bits is. -/
def metaStateConsistent (m : Nat) : Prop :=
  ((m &&& META_ALT_LEFT_ON ≠ 0 ∨ m &&& META_ALT_RIGHT_ON ≠ 0) ↔ m &&& META_ALT_ON ≠ 0)
  ∧ ((m &&& META_SHIFT_LEFT_ON ≠ 0 ∨ m &&& META_SHIFT_RIGHT_ON ≠ 0) ↔
      m &&& META_SHIFT_ON ≠ 0)

lemma land_two_pow_ne_zero (m i : Nat) : m &&& 2 ^ i ≠ 0 ↔ m.testBit i = true := by
  rw [Nat.and_two_pow]
  cases h : m.testBit i
  · simp
  · simp [(Nat.two_pow_pos i).ne']

lemma land_pair_ne_zero (m a b : Nat) :
    m &&& (2 ^ a ||| 2 ^ b) ≠ 0 ↔ (m.testBit a = true ∨ m.testBit b = true) := by
  constructor
  · intro h
    by_contra hc
    push_neg at hc
    obtain ⟨ha, hb⟩ := hc
    have ha : m.testBit a = false := by revert ha; cases m.testBit a <;> simp
    have hb : m.testBit b = false := by revert hb; cases m.testBit b <;> simp
    apply h
    apply Nat.zero_of_testBit_eq_false
    intro i
    rw [Nat.testBit_land, Nat.testBit_lor]
    by_cases hia : i = a
    · subst hia; simp [ha]
    · by_cases hib : i = b
      · subst hib; simp [hb]
      · simp [Nat.testBit_two_pow_of_ne (Ne.symm hia),
          Nat.testBit_two_pow_of_ne (Ne.symm hib)]
  · rintro (h | h) <;> intro h0
    · have ht : (m &&& (2 ^ a ||| 2 ^ b)).testBit a = true := by
        rw [Nat.testBit_land, Nat.testBit_lor]
        simp [h]
      rw [h0] at ht
      simp at ht
    · have ht : (m &&& (2 ^ a ||| 2 ^ b)).testBit b = true := by
        rw [Nat.testBit_land, Nat.testBit_lor]
        simp [h]
      rw [h0] at ht
      simp at ht

lemma metaStateConsistent_iff (m : Nat) :
    metaStateConsistent m ↔
      (((m.testBit 4 = true ∨ m.testBit 5 = true) ↔ m.testBit 1 = true)
        ∧ ((m.testBit 6 = true ∨ m.testBit 7 = true) ↔ m.testBit 0 = true)) := by
  have e1 : META_ALT_LEFT_ON = 2 ^ 4 := rfl
  have e2 : META_ALT_RIGHT_ON = 2 ^ 5 := rfl
  have e3 : META_ALT_ON = 2 ^ 1 := rfl
  have e4 : META_SHIFT_LEFT_ON = 2 ^ 6 := rfl
  have e5 : META_SHIFT_RIGHT_ON = 2 ^ 7 := rfl
  have e6 : META_SHIFT_ON = 2 ^ 0 := rfl
  rw [metaStateConsistent, e1, e2, e3, e4, e5, e6]
  rw [land_two_pow_ne_zero, land_two_pow_ne_zero, land_two_pow_ne_zero,
    land_two_pow_ne_zero, land_two_pow_ne_zero, land_two_pow_ne_zero]

lemma condAlt_iff (s : Nat) :
    (s &&& (META_ALT_LEFT_ON ||| META_ALT_RIGHT_ON) ≠ 0) ↔
      (s.testBit 4 = true ∨ s.testBit 5 = true) := by
  have e : META_ALT_LEFT_ON ||| META_ALT_RIGHT_ON = 2 ^ 4 ||| 2 ^ 5 := rfl
  rw [e, land_pair_ne_zero]

lemma condShift_iff (s : Nat) :
    (s &&& (META_SHIFT_LEFT_ON ||| META_SHIFT_RIGHT_ON) ≠ 0) ↔
      (s.testBit 6 = true ∨ s.testBit 7 = true) := by
  have e : META_SHIFT_LEFT_ON ||| META_SHIFT_RIGHT_ON = 2 ^ 6 ||| 2 ^ 7 := rfl
  rw [e, land_pair_ne_zero]

lemma testBit_metaFixAlt (s j : Nat) :
    (metaFixAlt s).testBit j =
      (s.testBit j ||
        (decide (1 = j) && decide (s.testBit 4 = true ∨ s.testBit 5 = true))) := by
  unfold metaFixAlt
  split_ifs with hc
  · rw [condAlt_iff] at hc
    have e : META_ALT_ON = 1 <<< 1 := rfl
    rw [Nat.testBit_lor, e, testBit_one_shiftLeft]
    simp [hc]
  · rw [condAlt_iff] at hc
    simp [hc]

lemma testBit_metaFixShift (s j : Nat) :
    (metaFixShift s).testBit j =
      (s.testBit j ||
        (decide (0 = j) && decide (s.testBit 6 = true ∨ s.testBit 7 = true))) := by
  unfold metaFixShift
  split_ifs with hc
  · rw [condShift_iff] at hc
    have e : META_SHIFT_ON = 1 <<< 0 := rfl
    rw [Nat.testBit_lor, e, testBit_one_shiftLeft]
    simp [hc]
  · rw [condShift_iff] at hc
    simp [hc]

lemma testBit_three (j : Nat) :
    (3 : Nat).testBit j = (decide (0 = j) || decide (1 = j)) := by
  match j with
  | 0 => rfl
  | 1 => rfl
  | j + 2 =>
    rw [Nat.testBit_succ, Nat.testBit_succ]
    norm_num

/-- The fix-ups preserve every bit other than 0 and 1, and set bit 1 (resp.
bit 0) exactly when one of bits 4/5 (resp. 6/7) is set or it was set before. -/
lemma applyMetaMask_consistent (down : Bool) (old mask : Nat)
    (h : metaStateConsistent old)
    (h1 : mask.testBit 1 = false) (h0 : mask.testBit 0 = false) :
    metaStateConsistent (applyMetaMask down old mask) := by
  rw [metaStateConsistent_iff] at h ⊢
  obtain ⟨hAlt, hShift⟩ := h
  unfold applyMetaMask
  have e3 : META_ALT_ON ||| META_SHIFT_ON = 3 := rfl
  cases down
  · -- key released: combined bits are cleared before the fix-ups re-add them
    simp only [Bool.false_eq_true, if_false, e3]
    constructor <;>
      · simp only [testBit_metaFixShift, testBit_metaFixAlt, testBit_andNot,
          testBit_three]
        simp at hAlt hShift ⊢
        try tauto
  · -- key pressed
    simp only [if_true]
    constructor <;>
      · simp only [testBit_metaFixShift, testBit_metaFixAlt, Nat.testBit_lor,
          h1, h0]
        simp at hAlt hShift ⊢
        try tauto

/-- C5: `updateMetaState` preserves the meta-state consistency invariant:
if the old meta state satisfies (ALT_LEFT ∨ ALT_RIGHT) ⇔ ALT and
(SHIFT_LEFT ∨ SHIFT_RIGHT) ⇔ SHIFT, so does the returned meta state, for
every key code and down flag. -/
theorem updateMetaState_keeps_consistent (keyCode : Int) (down : Bool)
    (oldMetaState : Nat) (h : metaStateConsistent oldMetaState) :
    metaStateConsistent (updateMetaState keyCode down oldMetaState) := by
  unfold updateMetaState
  split_ifs <;>
    first
      | exact applyMetaMask_consistent down oldMetaState _ h (by decide) (by decide)
      | exact h

/-- Witness: the invariant instance used by `updateMetaState_keeps_consistent`
holds at the concrete input (ALT_LEFT pressed on an empty meta state). -/
theorem updateMetaState_keeps_consistent_witness :
    metaStateConsistent (updateMetaState AKEYCODE_ALT_LEFT true 0) :=
  updateMetaState_keeps_consistent AKEYCODE_ALT_LEFT true 0
    (by unfold metaStateConsistent; decide)

/-! ## `rotateKeyCode` (InputReader.cpp lines 95-115) -/

/-- `keyCodeRotationMap`: each row lists a DPAD key code followed by its
images under 90, 180 and 270 degree display rotation. -/
def keyCodeRotationMap : List (List Int) :=
  [ [AKEYCODE_DPAD_DOWN, AKEYCODE_DPAD_RIGHT, AKEYCODE_DPAD_UP, AKEYCODE_DPAD_LEFT],
    [AKEYCODE_DPAD_RIGHT, AKEYCODE_DPAD_UP, AKEYCODE_DPAD_LEFT, AKEYCODE_DPAD_DOWN],
    [AKEYCODE_DPAD_UP, AKEYCODE_DPAD_LEFT, AKEYCODE_DPAD_DOWN, AKEYCODE_DPAD_RIGHT],
    [AKEYCODE_DPAD_LEFT, AKEYCODE_DPAD_DOWN, AKEYCODE_DPAD_RIGHT, AKEYCODE_DPAD_UP] ]

/-- The linear scan over `keyCodeRotationMap` returning
`keyCodeRotationMap[i][orientation]` for the first row whose first entry
is `keyCode`.  `orientation` is one of the `ROTATION_*` indices. -/
def rotateKeyCode (keyCode : Int) (orientation : Nat) : Int :=
  if orientation ≠ ROTATION_0 then
    match keyCodeRotationMap.find? (fun row => row.headD 0 = keyCode) with
    | some row => row.getD orientation 0
    | none => keyCode
  else keyCode

/-! ## Exported-state query surface (InputReader.cpp lines 1344-1368)

`getCurrentScanCodeState` / `getCurrentKeyCodeState` consult the exported
virtual scan/key code under the exported-state lock and fall back to the
event source.  The event source query is modelled as a function argument,
so "the event source is consulted only when the exported value does not
match" is expressed as insensitivity of the result to that argument. -/

def getCurrentScanCodeState (exportedVirtualScanCode : Int)
    (eventHubGetScanCodeState : Int → Int → Int → Int)
    (deviceId deviceClasses scanCode : Int) : Int :=
  if exportedVirtualScanCode = scanCode then KEY_STATE_VIRTUAL
  else eventHubGetScanCodeState deviceId deviceClasses scanCode

def getCurrentKeyCodeState (exportedVirtualKeyCode : Int)
    (eventHubGetKeyCodeState : Int → Int → Int → Int)
    (deviceId deviceClasses keyCode : Int) : Int :=
  if exportedVirtualKeyCode = keyCode then KEY_STATE_VIRTUAL
  else eventHubGetKeyCodeState deviceId deviceClasses keyCode

/-- The counter-clockwise DPAD cycle named by the spec: index `i` holds the
key code whose images under rotation step through the cycle. -/
def dpadRotationCycle : List Int :=
  [AKEYCODE_DPAD_DOWN, AKEYCODE_DPAD_RIGHT, AKEYCODE_DPAD_UP, AKEYCODE_DPAD_LEFT]

/-- C9: `rotateKeyCode` maps `AKEYCODE_DPAD_DOWN` to DOWN / RIGHT / UP / LEFT
at orientations 0 / 90 / 180 / 270; each DPAD key code at cycle index `i` is
sent to cycle index `(i + orientation) mod 4`; every non-DPAD key code is
returned unchanged at every orientation. -/
theorem rotateKeyCode_dpad_cycle :
    (rotateKeyCode AKEYCODE_DPAD_DOWN ROTATION_0 = AKEYCODE_DPAD_DOWN
      ∧ rotateKeyCode AKEYCODE_DPAD_DOWN ROTATION_90 = AKEYCODE_DPAD_RIGHT
      ∧ rotateKeyCode AKEYCODE_DPAD_DOWN ROTATION_180 = AKEYCODE_DPAD_UP
      ∧ rotateKeyCode AKEYCODE_DPAD_DOWN ROTATION_270 = AKEYCODE_DPAD_LEFT)
    ∧ (∀ orientation < 4, ∀ i < 4,
        rotateKeyCode (dpadRotationCycle.getD i 0) orientation
          = dpadRotationCycle.getD ((i + orientation) % 4) 0)
    ∧ (∀ keyCode : Int, keyCode ∉ dpadRotationCycle → ∀ orientation < 4,
        rotateKeyCode keyCode orientation = keyCode) := by
  refine ⟨by decide, ?_, ?_⟩
  · intro o ho i hi
    interval_cases o <;> interval_cases i <;> decide
  · intro k hk o ho
    simp only [dpadRotationCycle, List.mem_cons, List.not_mem_nil, or_false] at hk
    push_neg at hk
    obtain ⟨h1, h2, h3, h4⟩ := hk
    unfold rotateKeyCode
    split_ifs with horient
    · have e : keyCodeRotationMap.find? (fun row => row.headD 0 = k) = none := by
        simp only [keyCodeRotationMap, List.find?, AKEYCODE_DPAD_DOWN,
          AKEYCODE_DPAD_RIGHT, AKEYCODE_DPAD_UP, AKEYCODE_DPAD_LEFT]
        rw [decide_eq_false (fun h => h1 h.symm),
          decide_eq_false (fun h => h2 h.symm),
          decide_eq_false (fun h => h3 h.symm),
          decide_eq_false (fun h => h4 h.symm)]
      rw [e]
    · rfl

/-- Witness for `rotateKeyCode_dpad_cycle`: the quantified parts applied at
concrete inputs (DPAD_RIGHT rotated by 90 degrees; key code 7 unchanged). -/
theorem rotateKeyCode_dpad_cycle_witness :
    rotateKeyCode (dpadRotationCycle.getD 1 0) 1 = dpadRotationCycle.getD (2 % 4) 0
    ∧ rotateKeyCode 7 1 = 7 :=
  ⟨rotateKeyCode_dpad_cycle.2.1 1 (by norm_num) 1 (by norm_num),
    rotateKeyCode_dpad_cycle.2.2 7 (by decide) 1 (by norm_num)⟩

/-- C10: whenever the exported virtual scan code equals the queried scan
code, `getCurrentScanCodeState` answers `KEY_STATE_VIRTUAL` no matter which
device id or classes the query names, and the result does not depend on the
event source; the event source is consulted exactly when there is no match
(and likewise for `getCurrentKeyCodeState`). -/
theorem getCurrentState_virtual_shortcut
    (exported : Int) (hub hub' : Int → Int → Int → Int)
    (deviceId deviceId' deviceClasses deviceClasses' code : Int) :
    (exported = code →
      getCurrentScanCodeState exported hub deviceId deviceClasses code
          = KEY_STATE_VIRTUAL
        ∧ getCurrentScanCodeState exported hub deviceId deviceClasses code
          = getCurrentScanCodeState exported hub' deviceId' deviceClasses' code
        ∧ getCurrentKeyCodeState exported hub deviceId deviceClasses code
          = KEY_STATE_VIRTUAL
        ∧ getCurrentKeyCodeState exported hub deviceId deviceClasses code
          = getCurrentKeyCodeState exported hub' deviceId' deviceClasses' code)
    ∧ (exported ≠ code →
      getCurrentScanCodeState exported hub deviceId deviceClasses code
          = hub deviceId deviceClasses code
        ∧ getCurrentKeyCodeState exported hub deviceId deviceClasses code
          = hub deviceId deviceClasses code) := by
  constructor
  · intro h
    simp [getCurrentScanCodeState, getCurrentKeyCodeState, h]
  · intro h
    simp [getCurrentScanCodeState, getCurrentKeyCodeState, h]

/-- Witness for `getCurrentState_virtual_shortcut` at a concrete exported
scan code 102, two distinct event-source functions and two device ids. -/
theorem getCurrentState_virtual_shortcut_witness :
    (getCurrentScanCodeState 102 (fun _ _ _ => 0) 3 5 102 = KEY_STATE_VIRTUAL
      ∧ getCurrentScanCodeState 102 (fun _ _ _ => 0) 3 5 102
        = getCurrentScanCodeState 102 (fun _ _ _ => 1) 4 6 102
      ∧ getCurrentKeyCodeState 102 (fun _ _ _ => 0) 3 5 102 = KEY_STATE_VIRTUAL
      ∧ getCurrentKeyCodeState 102 (fun _ _ _ => 0) 3 5 102
        = getCurrentKeyCodeState 102 (fun _ _ _ => 1) 4 6 102) :=
  (getCurrentState_virtual_shortcut 102 (fun _ _ _ => 0) (fun _ _ _ => 1)
    3 4 5 6 102).1 rfl

/-! ## Raw-event scan codes (Linux input subset, spec section 6) -/

def SYN_REPORT : Int := 0
def SYN_MT_REPORT : Int := 2
def ABS_MT_TOUCH_MAJOR : Int := 48
def ABS_MT_WIDTH_MAJOR : Int := 50
def ABS_MT_POSITION_X : Int := 53
def ABS_MT_POSITION_Y : Int := 54
def ABS_MT_TRACKING_ID : Int := 57

/-! ## Accumulators (ui/InputReader.h state mutated by InputReader.cpp) -/

def FIELD_ABS_MT_POSITION_X : Nat := 1
def FIELD_ABS_MT_POSITION_Y : Nat := 2
def FIELD_ABS_MT_TOUCH_MAJOR : Nat := 4
def FIELD_ABS_MT_WIDTH_MAJOR : Nat := 8
def FIELD_ABS_MT_TRACKING_ID : Nat := 16

/-- Modelled from the spec: the per-pointer record of the multi-touch
accumulator (spec section 3, "Multi-touch substate"); the structure lives in
`ui/InputReader.h`, outside this translation unit.  `fields` is the bitmask
of fields touched this frame. -/
structure MTPointer where
  fields : Nat
  absMTPositionX : Int
  absMTPositionY : Int
  absMTTouchMajor : Int
  absMTWidthMajor : Int
  absMTTrackingId : Int
deriving DecidableEq

/-- Modelled from the spec: `Pointer::clear()` zeroes the record. -/
def MTPointer.clear : MTPointer := ⟨0, 0, 0, 0, 0, 0⟩

/-- Modelled from the spec: the multi-touch accumulator (spec section 3):
up to `MAX_POINTERS` per-pointer records (the array has one extra slot, the
"current" slot written by absolute-motion events) and a running pointer
count advanced on per-pointer sync.  Slots are modelled as a total function
from slot index. -/
structure MTAccumulator where
  pointerCount : Nat
  pointers : Nat → MTPointer

def MTAccumulator.setPointer (a : MTAccumulator) (i : Nat) (p : MTPointer) :
    MTAccumulator :=
  { a with pointers := fun j => if j = i then p else a.pointers j }

/-- Modelled from the spec: `Accumulator::clear()` — accumulators cycle
per-frame, "read and cleared at sync" (spec section 3, Lifecycles). -/
def MTAccumulator.clear : MTAccumulator := ⟨0, fun _ => MTPointer.clear⟩

/-- Modelled from the spec: the accumulator is dirty when it has committed
pointers or the current slot has been written (`isDirty()` in
`ui/InputReader.h`). -/
def MTAccumulator.isDirty (a : MTAccumulator) : Bool :=
  a.pointerCount ≠ 0 || (a.pointers 0).fields ≠ 0

/-- `handleAbsoluteMotion`, multi-touch arm (InputReader.cpp lines 306-337):
write the value into the current pointer slot and mark its field bit. -/
def handleAbsoluteMotionMT (a : MTAccumulator) (scanCode value : Int) :
    MTAccumulator :=
  let i := a.pointerCount
  let p := a.pointers i
  if scanCode = ABS_MT_POSITION_X then
    a.setPointer i
      { p with fields := p.fields ||| FIELD_ABS_MT_POSITION_X, absMTPositionX := value }
  else if scanCode = ABS_MT_POSITION_Y then
    a.setPointer i
      { p with fields := p.fields ||| FIELD_ABS_MT_POSITION_Y, absMTPositionY := value }
  else if scanCode = ABS_MT_TOUCH_MAJOR then
    a.setPointer i
      { p with fields := p.fields ||| FIELD_ABS_MT_TOUCH_MAJOR, absMTTouchMajor := value }
  else if scanCode = ABS_MT_WIDTH_MAJOR then
    a.setPointer i
      { p with fields := p.fields ||| FIELD_ABS_MT_WIDTH_MAJOR, absMTWidthMajor := value }
  else if scanCode = ABS_MT_TRACKING_ID then
    a.setPointer i
      { p with fields := p.fields ||| FIELD_ABS_MT_TRACKING_ID, absMTTrackingId := value }
  else a

/-- `handleSync`, `SYN_MT_REPORT` arm (InputReader.cpp lines 210-227): if the
current slot is dirty, advance the pointer count unless it already equals
`MAX_POINTERS` (then only a warning is logged and the report is dropped);
in every case clear the new current slot. -/
def handleMTSync (a : MTAccumulator) : MTAccumulator :=
  if (a.pointers a.pointerCount).fields ≠ 0 then
    if a.pointerCount = MAX_POINTERS then
      a.setPointer a.pointerCount MTPointer.clear
    else
      ({ a with pointerCount := a.pointerCount + 1 } : MTAccumulator).setPointer
        (a.pointerCount + 1) MTPointer.clear
  else
    a.setPointer a.pointerCount MTPointer.clear

/-- The raw events that reach a multi-touch device's accumulator. -/
inductive MTRawEvent where
  | absMotion (scanCode value : Int)
  | mtSync
  | frameSync
deriving DecidableEq

/-- One raw event against the multi-touch accumulator: `EV_ABS` writes a
field, `SYN_MT_REPORT` runs `handleMTSync`, `SYN_REPORT` commits and clears
a dirty accumulator (InputReader.cpp lines 228-234). -/
def mtStep (a : MTAccumulator) : MTRawEvent → MTAccumulator
  | MTRawEvent.absMotion scanCode value => handleAbsoluteMotionMT a scanCode value
  | MTRawEvent.mtSync => handleMTSync a
  | MTRawEvent.frameSync => if a.isDirty then MTAccumulator.clear else a

/-- The accumulator after a raw-event sequence, starting from the cleared
state a fresh device has. -/
def mtRun (events : List MTRawEvent) : MTAccumulator :=
  events.foldl mtStep MTAccumulator.clear

lemma handleAbsoluteMotionMT_pointerCount (a : MTAccumulator) (sc v : Int) :
    (handleAbsoluteMotionMT a sc v).pointerCount = a.pointerCount := by
  unfold handleAbsoluteMotionMT MTAccumulator.setPointer
  split_ifs <;> rfl

lemma handleMTSync_pointerCount_le {a : MTAccumulator}
    (h : a.pointerCount ≤ MAX_POINTERS) :
    (handleMTSync a).pointerCount ≤ MAX_POINTERS := by
  unfold handleMTSync MTAccumulator.setPointer
  split_ifs with h1 h2 <;> simp_all <;> omega

lemma mtStep_pointerCount_le {a : MTAccumulator} (e : MTRawEvent)
    (h : a.pointerCount ≤ MAX_POINTERS) :
    (mtStep a e).pointerCount ≤ MAX_POINTERS := by
  cases e with
  | absMotion sc v => rw [mtStep, handleAbsoluteMotionMT_pointerCount]; exact h
  | mtSync => exact handleMTSync_pointerCount_le h
  | frameSync =>
    rw [mtStep]
    split_ifs
    · simp [MTAccumulator.clear]
    · exact h

lemma mtRun_pointerCount_le_aux (events : List MTRawEvent) (a : MTAccumulator)
    (h : a.pointerCount ≤ MAX_POINTERS) :
    (events.foldl mtStep a).pointerCount ≤ MAX_POINTERS := by
  induction events generalizing a with
  | nil => exact h
  | cons e rest ih => exact ih (mtStep a e) (mtStep_pointerCount_le e h)

/-- C4: for every raw-event sequence the multi-touch pointer count never
exceeds `MAX_POINTERS`; and on a per-pointer sync with a dirty current slot
at the `MAX_POINTERS` bound, the count stays put and the excess report is
dropped (its slot is cleared). -/
theorem mtAccumulator_pointerCount_bounded :
    (∀ events : List MTRawEvent, (mtRun events).pointerCount ≤ MAX_POINTERS)
    ∧ (∀ a : MTAccumulator, a.pointerCount = MAX_POINTERS →
        (a.pointers a.pointerCount).fields ≠ 0 →
        (handleMTSync a).pointerCount = MAX_POINTERS
          ∧ (handleMTSync a).pointers a.pointerCount = MTPointer.clear) := by
  constructor
  · intro events
    exact mtRun_pointerCount_le_aux events MTAccumulator.clear (by simp [MTAccumulator.clear, MAX_POINTERS])
  · intro a hmax hdirty
    unfold handleMTSync MTAccumulator.setPointer
    rw [if_pos hdirty, if_pos hmax]
    exact ⟨hmax, by simp⟩

/-- Witness for `mtAccumulator_pointerCount_bounded`: eleven dirty
per-pointer reports leave the count at `MAX_POINTERS`, and the overflow
sync on a full accumulator drops the report. -/
theorem mtAccumulator_pointerCount_bounded_witness :
    (mtRun (List.replicate 11 MTRawEvent.mtSync)).pointerCount ≤ MAX_POINTERS
      ∧ ((handleMTSync ⟨MAX_POINTERS, fun _ =>
            { MTPointer.clear with fields := FIELD_ABS_MT_TOUCH_MAJOR }⟩).pointerCount
          = MAX_POINTERS) :=
  ⟨mtAccumulator_pointerCount_bounded.1 (List.replicate 11 MTRawEvent.mtSync),
    (mtAccumulator_pointerCount_bounded.2
      ⟨MAX_POINTERS, fun _ => { MTPointer.clear with fields := FIELD_ABS_MT_TOUCH_MAJOR }⟩
      rfl (by decide)).1⟩

/-! ## Frame sync (`SYN_REPORT`, InputReader.cpp lines 228-246)

Committing a dirty accumulator invokes the corresponding
`on*StateChanged` handler, which runs the downstream dispatch pipeline
(touch assembly, policy, dispatcher); each such invocation is recorded
here as one `CommitEffect`.  Touch and trackball events can only be
dispatched from inside these handlers. -/

/-- Modelled from the spec: the single-touch accumulator (spec section 3,
"Single-touch substate"), defined in `ui/InputReader.h`. -/
structure STAccumulator where
  fields : Nat
  btnTouch : Bool
  absX : Int
  absY : Int
  absPressure : Int
  absToolWidth : Int
deriving DecidableEq

/-- Modelled from the spec: `clear()` zeroes the single-touch accumulator. -/
def STAccumulator.clear : STAccumulator := ⟨0, false, 0, 0, 0, 0⟩

/-- Modelled from the spec: dirty when any field was touched this frame. -/
def STAccumulator.isDirty (a : STAccumulator) : Bool := a.fields ≠ 0

/-- Modelled from the spec: the trackball accumulator (spec section 3,
"Trackball substate"), defined in `ui/InputReader.h`. -/
structure TBAccumulator where
  fields : Nat
  btnMouse : Bool
  relX : Int
  relY : Int
deriving DecidableEq

/-- Modelled from the spec: `clear()` zeroes the trackball accumulator. -/
def TBAccumulator.clear : TBAccumulator := ⟨0, false, 0, 0⟩

/-- Modelled from the spec: dirty when any field was touched this frame. -/
def TBAccumulator.isDirty (a : TBAccumulator) : Bool := a.fields ≠ 0

/-- The per-device state `handleSync` consults on a frame sync: the class
predicates and the three accumulators. -/
structure SyncDevice where
  isMultiTouchScreen : Bool
  isSingleTouchScreen : Bool
  isTrackball : Bool
  mtAccumulator : MTAccumulator
  stAccumulator : STAccumulator
  tbAccumulator : TBAccumulator

/-- A commit performed at frame sync: each case marks one invocation of the
corresponding `on*StateChanged` handler. -/
inductive CommitEffect where
  | commitMultiTouch
  | commitSingleTouch
  | commitTrackball
deriving DecidableEq

/-- `handleSync`, `SYN_REPORT` arm (InputReader.cpp lines 228-246): commit
each dirty accumulator by invoking its handler, then clear it. -/
def handleSyncReport (d : SyncDevice) : SyncDevice × List CommitEffect :=
  let (d1, e1) :=
    if d.isMultiTouchScreen then
      if d.mtAccumulator.isDirty then
        ({ d with mtAccumulator := MTAccumulator.clear },
          [CommitEffect.commitMultiTouch])
      else (d, [])
    else if d.isSingleTouchScreen then
      if d.stAccumulator.isDirty then
        ({ d with stAccumulator := STAccumulator.clear },
          [CommitEffect.commitSingleTouch])
      else (d, [])
    else (d, [])
  if d1.tbAccumulator.isDirty then
    ({ d1 with tbAccumulator := TBAccumulator.clear },
      e1 ++ [CommitEffect.commitTrackball])
  else (d1, e1)

/-- C7: committing at frame sync is idempotent when nothing changed: after
one `SYN_REPORT` commits and clears a device's dirty accumulators, a second
`SYN_REPORT` with no intervening field updates invokes no handler at all
(so no touch or trackball event is dispatched) and leaves the device state
untouched: one frame is produced, not two. -/
theorem handleSyncReport_idempotent (d : SyncDevice) :
    (handleSyncReport (handleSyncReport d).1).2 = []
      ∧ (handleSyncReport (handleSyncReport d).1).1 = (handleSyncReport d).1 := by
  obtain ⟨mt, st, tb, ma, sa, ta⟩ := d
  cases mt <;> cases st <;>
    by_cases h1 : ma.isDirty <;> by_cases h2 : sa.isDirty <;>
    by_cases h3 : ta.isDirty <;>
    simp_all [handleSyncReport, MTAccumulator.isDirty, STAccumulator.isDirty,
      TBAccumulator.isDirty, MTAccumulator.clear, STAccumulator.clear,
      TBAccumulator.clear, MTPointer.clear]

/-! ## Touch frames and multi-touch assembly
(`onMultiTouchScreenStateChanged`, InputReader.cpp lines 435-513) -/

/-- Modelled from the spec: one pointer of a touch frame (spec section 3,
"Touch frame"; the structure lives in `ui/InputReader.h`). -/
structure TouchPointer where
  id : Nat
  x : Int
  y : Int
  pressure : Int
  size : Int
deriving DecidableEq

/-- Modelled from the spec: a touch frame — fixed-capacity pointer array
(modelled as a total function from slot index), `pointerCount`, `idBits`
and the dense reverse map `idToIndex`.  `clear()` zeroes it. -/
structure TouchData where
  pointerCount : Nat
  pointers : Nat → TouchPointer
  idToIndex : Nat → Nat
  idBits : Nat

def TouchData.clear : TouchData := ⟨0, fun _ => ⟨0, 0, 0, 0, 0⟩, fun _ => 0, 0⟩

/-- `REQUIRED_FIELDS` (InputReader.cpp lines 437-441). -/
def REQUIRED_FIELDS : Nat :=
  FIELD_ABS_MT_POSITION_X ||| FIELD_ABS_MT_POSITION_Y
    ||| FIELD_ABS_MT_TOUCH_MAJOR ||| FIELD_ABS_MT_WIDTH_MAJOR

/-- One iteration of the assembly loop (InputReader.cpp lines 460-508),
state `(out, outCount, havePointerIds)`.  The source guards the
missing-required-fields case at line 463, but in this build
(`DEBUG_POINTERS 0`) the guarded block — including the `continue` that
would drop the slot — is compiled out, so the check has no effect and only
the touch-major test can drop a slot.  The `uint32_t` cast of the tracking
id is taken modulo `2^32`. -/
def mtAssembleStep (st : TouchData × Nat × Bool) (p : MTPointer) :
    TouchData × Nat × Bool :=
  if p.absMTTouchMajor ≤ 0 then st
  else
    let out := st.1
    let outCount := st.2.1
    let havePointerIds := st.2.2
    let basePointer : TouchPointer :=
      { out.pointers outCount with
          x := p.absMTPositionX
          y := p.absMTPositionY
          pressure := p.absMTTouchMajor
          size := p.absMTWidthMajor }
    if havePointerIds then
      if p.fields &&& FIELD_ABS_MT_TRACKING_ID ≠ 0 then
        let id := (p.absMTTrackingId.emod 4294967296).toNat
        if MAX_POINTER_ID < id then
          ({ out with
              pointers := fun j => if j = outCount then basePointer else out.pointers j },
            outCount + 1, false)
        else
          ({ out with
              pointers := fun j =>
                if j = outCount then { basePointer with id := id } else out.pointers j
              idToIndex := fun k => if k = id then outCount else out.idToIndex k
              idBits := markBit out.idBits id },
            outCount + 1, true)
      else
        ({ out with
            pointers := fun j => if j = outCount then basePointer else out.pointers j },
          outCount + 1, false)
    else
      ({ out with
          pointers := fun j => if j = outCount then basePointer else out.pointers j },
        outCount + 1, false)

/-- `onMultiTouchScreenStateChanged`, device-state update part (InputReader.cpp
lines 449-511): assemble the accumulator slots into the current touch frame
and report whether usable driver ids were seen. -/
def onMultiTouchScreenStateChanged (acc : MTAccumulator) : TouchData × Bool :=
  let st := (List.range acc.pointerCount).foldl
    (fun s i => mtAssembleStep s (acc.pointers i)) (TouchData.clear, 0, true)
  ({ st.1 with pointerCount := st.2.1 }, st.2.2)

/-- C1 (evaluation at the failing input): in this build a slot whose fields
bitmask is only `FIELD_ABS_MT_TOUCH_MAJOR` — missing three of the four
required fields — with touch-major 5 is NOT dropped: the assembled current
touch frame contains a pointer derived from it (pressure 5), because the
missing-required-fields `continue` at InputReader.cpp line 467 only exists
under `DEBUG_POINTERS`, which is 0 here. -/
theorem multiTouchAssembly_keeps_missing_fields_slot :
    (FIELD_ABS_MT_TOUCH_MAJOR &&& REQUIRED_FIELDS ≠ REQUIRED_FIELDS)
      ∧ (onMultiTouchScreenStateChanged
          ⟨1, fun _ => { MTPointer.clear with
              fields := FIELD_ABS_MT_TOUCH_MAJOR, absMTTouchMajor := 5 }⟩).1.pointerCount
        = 1
      ∧ ((onMultiTouchScreenStateChanged
          ⟨1, fun _ => { MTPointer.clear with
              fields := FIELD_ABS_MT_TOUCH_MAJOR, absMTTouchMajor := 5 }⟩).1.pointers 0).pressure
        = 5 := by
  refine ⟨by decide, ?_, ?_⟩ <;> rfl

/-! ## Touch dispatch (`dispatchTouches`, InputReader.cpp lines 714-775)

Each call of `dispatchTouch` is recorded as one `TouchEvent`: the motion
action, the frame the coordinates are drawn from (`lastTouch` for ups,
`currentTouch` for moves and downs), and the id set whose pointers are
included.  The `downTime` side effect on MOTION_EVENT_ACTION_DOWN does not
affect which events a frame pair produces and is not modelled here. -/

structure TouchEvent where
  action : Nat
  source : TouchData
  idBits : Nat

/-- The first `while` loop of `dispatchTouches` (lines 738-754): pop the
lowest id going up, emit `UP` when the active set empties (`POINTER_UP`
with the id in the action otherwise) with coordinates from the source
frame and the pre-removal active set; returns the events and the final
active set. -/
def touchUpLoop (src : TouchData) (upIdBits activeIdBits : Nat) :
    List TouchEvent × Nat :=
  if h : upIdBits = 0 then ([], activeIdBits)
  else
    let upId := firstMarkedBit upIdBits
    let rest := touchUpLoop src (clearBit upIdBits upId) (clearBit activeIdBits upId)
    (⟨if clearBit activeIdBits upId = 0 then MOTION_EVENT_ACTION_UP
        else MOTION_EVENT_ACTION_POINTER_UP
          ||| (upId <<< MOTION_EVENT_ACTION_POINTER_INDEX_SHIFT),
      src, activeIdBits⟩ :: rest.1, rest.2)
termination_by upIdBits
decreasing_by exact clearBit_firstMarkedBit_lt h

/-- The second `while` loop (lines 756-773): pop the lowest id going down,
emit `DOWN` when the active set was empty (`POINTER_DOWN` otherwise) with
coordinates from the source frame and the post-insertion active set. -/
def touchDownLoop (src : TouchData) (downIdBits activeIdBits : Nat) :
    List TouchEvent :=
  if h : downIdBits = 0 then []
  else
    let downId := firstMarkedBit downIdBits
    ⟨if activeIdBits = 0 then MOTION_EVENT_ACTION_DOWN
        else MOTION_EVENT_ACTION_POINTER_DOWN
          ||| (downId <<< MOTION_EVENT_ACTION_POINTER_INDEX_SHIFT),
      src, markBit activeIdBits downId⟩ ::
      touchDownLoop src (clearBit downIdBits downId) (markBit activeIdBits downId)
termination_by downIdBits
decreasing_by exact clearBit_firstMarkedBit_lt h

/-- `dispatchTouches` (lines 714-775): nothing on two empty frames, one MOVE
when the id sets agree, otherwise ups (from `lastTouch`) then downs (from
`currentTouch`), the active set starting at `lastIdBits`. -/
def dispatchTouches (currentTouch lastTouch : TouchData) : List TouchEvent :=
  if currentTouch.pointerCount = 0 ∧ lastTouch.pointerCount = 0 then []
  else if currentTouch.idBits = lastTouch.idBits then
    [⟨MOTION_EVENT_ACTION_MOVE, currentTouch, currentTouch.idBits⟩]
  else
    let upIdBits := andNot lastTouch.idBits currentTouch.idBits
    let downIdBits := andNot currentTouch.idBits lastTouch.idBits
    let up := touchUpLoop lastTouch upIdBits lastTouch.idBits
    up.1 ++ touchDownLoop currentTouch downIdBits up.2

/-- The claim's description of the up events, over the ascending list of
ids going up: an up gets `UP` exactly when the active set becomes empty
after removing its id, `POINTER_UP` otherwise, coordinates from the source
frame. -/
def claimUpEvents (src : TouchData) : List Nat → Nat → List TouchEvent
  | [], _ => []
  | id :: rest, active =>
    ⟨if clearBit active id = 0 then MOTION_EVENT_ACTION_UP
        else MOTION_EVENT_ACTION_POINTER_UP
          ||| (id <<< MOTION_EVENT_ACTION_POINTER_INDEX_SHIFT),
      src, active⟩ :: claimUpEvents src rest (clearBit active id)

/-- The claim's description of the down events, over the ascending list of
ids going down: a down gets `DOWN` exactly when the active set was empty
before adding its id, `POINTER_DOWN` otherwise. -/
def claimDownEvents (src : TouchData) : List Nat → Nat → List TouchEvent
  | [], _ => []
  | id :: rest, active =>
    ⟨if active = 0 then MOTION_EVENT_ACTION_DOWN
        else MOTION_EVENT_ACTION_POINTER_DOWN
          ||| (id <<< MOTION_EVENT_ACTION_POINTER_INDEX_SHIFT),
      src, markBit active id⟩ :: claimDownEvents src rest (markBit active id)

lemma andNot_zero_right (a : Nat) : andNot a 0 = a := by
  unfold andNot
  simp

lemma andNot_andNot_self (a b : Nat) : andNot a (andNot a b) = a &&& b := by
  refine Nat.eq_of_testBit_eq fun j => ?_
  rw [testBit_andNot, testBit_andNot, Nat.testBit_land]
  cases a.testBit j <;> cases b.testBit j <;> rfl

lemma andNot_clearBit_eq {up : Nat} (a f : Nat) (h : up.testBit f = true) :
    andNot (clearBit a f) (clearBit up f) = andNot a up := by
  refine Nat.eq_of_testBit_eq fun j => ?_
  rw [testBit_andNot, testBit_andNot, testBit_clearBit, testBit_clearBit]
  by_cases hj : f = j
  · subst hj
    simp [h]
  · simp [hj]

lemma andNot_eq_zero_iff_eq_of_ne {a b : Nat} (hne : a ≠ b) :
    ¬(andNot a b = 0 ∧ andNot b a = 0) := by
  rintro ⟨h1, h2⟩
  apply hne
  refine Nat.eq_of_testBit_eq fun j => ?_
  have t1 := congrArg (fun x => x.testBit j) h1
  have t2 := congrArg (fun x => x.testBit j) h2
  simp only [testBit_andNot, Nat.zero_testBit] at t1 t2
  cases ha : a.testBit j <;> cases hb : b.testBit j <;> simp_all

/-- The up loop is the claim's list recursion over ascending up ids, and
its final active set removes exactly the up ids. -/
lemma touchUpLoop_eq (src : TouchData) (upIdBits activeIdBits : Nat) :
    touchUpLoop src upIdBits activeIdBits =
      (claimUpEvents src (natBits upIdBits) activeIdBits,
        andNot activeIdBits upIdBits) := by
  induction upIdBits using Nat.strong_induction_on generalizing activeIdBits with
  | _ upIdBits ih =>
    by_cases hn : upIdBits = 0
    · subst hn
      rw [touchUpLoop, natBits_zero]
      simp [claimUpEvents, andNot_zero_right]
    · rw [touchUpLoop, dif_neg hn, natBits_eq_cons hn, claimUpEvents]
      simp only [ih (clearBit upIdBits (firstMarkedBit upIdBits))
        (clearBit_firstMarkedBit_lt hn)]
      rw [andNot_clearBit_eq activeIdBits (firstMarkedBit upIdBits)
        (testBit_firstMarkedBit hn)]

/-- The down loop is the claim's list recursion over ascending down ids. -/
lemma touchDownLoop_eq (src : TouchData) (downIdBits activeIdBits : Nat) :
    touchDownLoop src downIdBits activeIdBits =
      claimDownEvents src (natBits downIdBits) activeIdBits := by
  induction downIdBits using Nat.strong_induction_on generalizing activeIdBits with
  | _ downIdBits ih =>
    by_cases hn : downIdBits = 0
    · subst hn
      rw [touchDownLoop, natBits_zero]
      simp [claimDownEvents]
    · rw [touchDownLoop, dif_neg hn, natBits_eq_cons hn, claimDownEvents]
      simp only [ih (clearBit downIdBits (firstMarkedBit downIdBits))
        (clearBit_firstMarkedBit_lt hn)]

/-- Characterization of `dispatchTouches` under the touch-frame invariant
(`pointerCount` is zero exactly when `idBits` is empty). -/
lemma dispatchTouches_characterization (currentTouch lastTouch : TouchData)
    (hc : currentTouch.pointerCount = 0 ↔ currentTouch.idBits = 0)
    (hl : lastTouch.pointerCount = 0 ↔ lastTouch.idBits = 0) :
    (currentTouch.idBits = lastTouch.idBits →
      dispatchTouches currentTouch lastTouch =
        if currentTouch.idBits = 0 then []
        else [⟨MOTION_EVENT_ACTION_MOVE, currentTouch, currentTouch.idBits⟩])
    ∧ (currentTouch.idBits ≠ lastTouch.idBits →
      dispatchTouches currentTouch lastTouch =
        claimUpEvents lastTouch
            (natBits (andNot lastTouch.idBits currentTouch.idBits))
            lastTouch.idBits
          ++ claimDownEvents currentTouch
              (natBits (andNot currentTouch.idBits lastTouch.idBits))
              (lastTouch.idBits &&& currentTouch.idBits)) := by
  constructor
  · intro heq
    unfold dispatchTouches
    by_cases hz : currentTouch.idBits = 0
    · have hcc : currentTouch.pointerCount = 0 := hc.mpr hz
      have hlc : lastTouch.pointerCount = 0 := hl.mpr (heq ▸ hz)
      rw [if_pos ⟨hcc, hlc⟩, if_pos hz]
    · have hcc : ¬currentTouch.pointerCount = 0 := fun h => hz (hc.mp h)
      rw [if_neg (fun h => hcc h.1), if_pos heq, if_neg hz]
  · intro hne
    unfold dispatchTouches
    have hguard : ¬(currentTouch.pointerCount = 0 ∧ lastTouch.pointerCount = 0) := by
      rintro ⟨h1, h2⟩
      exact hne ((hc.mp h1).trans (hl.mp h2).symm)
    rw [if_neg hguard, if_neg hne]
    simp only [touchUpLoop_eq, touchDownLoop_eq, andNot_andNot_self]

/-- C2: for a pair of consecutive touch frames, `dispatchTouches` emits
exactly one MOVE with all current pointers when the id sets are equal and
non-empty (nothing when both are empty); when they differ it emits one
event per id in last minus current (ups, ascending, coordinates from
`lastTouch`) followed by one event per id in current minus last (downs,
ascending, coordinates from `currentTouch`), where an up's action is UP
exactly when the active set empties on removal (POINTER_UP with the id
otherwise) and a down's action is DOWN exactly when the active set was
empty before insertion (POINTER_DOWN with the id otherwise). -/
theorem dispatchTouches_events (currentTouch lastTouch : TouchData)
    (hc : currentTouch.pointerCount = 0 ↔ currentTouch.idBits = 0)
    (hl : lastTouch.pointerCount = 0 ↔ lastTouch.idBits = 0) :
    (currentTouch.idBits = lastTouch.idBits →
      dispatchTouches currentTouch lastTouch =
        if currentTouch.idBits = 0 then []
        else [⟨MOTION_EVENT_ACTION_MOVE, currentTouch, currentTouch.idBits⟩])
    ∧ (currentTouch.idBits ≠ lastTouch.idBits →
      dispatchTouches currentTouch lastTouch =
        claimUpEvents lastTouch
            (natBits (andNot lastTouch.idBits currentTouch.idBits))
            lastTouch.idBits
          ++ claimDownEvents currentTouch
              (natBits (andNot currentTouch.idBits lastTouch.idBits))
              (lastTouch.idBits &&& currentTouch.idBits)) :=
  dispatchTouches_characterization currentTouch lastTouch hc hl

/-- Witness for `dispatchTouches_events`: a fresh one-pointer frame (id 0)
after an empty frame produces exactly the claim's down events. -/
theorem dispatchTouches_events_witness :
    dispatchTouches ⟨1, fun _ => ⟨0, 3, 4, 5, 6⟩, fun _ => 0, 1⟩ TouchData.clear =
      claimUpEvents TouchData.clear (natBits (andNot 0 1)) 0
        ++ claimDownEvents ⟨1, fun _ => ⟨0, 3, 4, 5, 6⟩, fun _ => 0, 1⟩
            (natBits (andNot 1 0)) (0 &&& 1) :=
  (dispatchTouches_events ⟨1, fun _ => ⟨0, 3, 4, 5, 6⟩, fun _ => 0, 1⟩
    TouchData.clear (by simp) (by simp [TouchData.clear])).2 (by simp [TouchData.clear])

/-! ## Virtual keys, the exported state, and the touch-frame pipeline
(`consumeVirtualKeyTouches` / `dispatchVirtualKey` /
`updateExportedVirtualKeyState` / `onTouchScreenChanged`,
InputReader.cpp lines 566-712 and 1273-1293)

The reader state carries the device list and the exported virtual-key
state (the mutex-guarded pair read by the query threads).  External
results — the policy's intercept answers, `findVirtualKeyHit`, and the
touch filters implemented outside this translation unit — enter as
parameters.  Dispatcher and policy calls are recorded as `Effect`s. -/

inductive VirtualKeyStatus where
  | statusNone
  | statusDown
  | statusCanceled
  | statusUp
deriving DecidableEq

/-- Modelled from the spec: a virtual key (spec section 3) — scan code,
derived key code, flags and the axis-space hit rectangle; the structure is
defined in `ui/InputReader.h`. -/
structure VirtualKey where
  scanCode : Int
  keyCode : Int
  flags : Nat
  hitLeft : Int
  hitRight : Int
  hitTop : Int
  hitBottom : Int
deriving DecidableEq

structure CurrentVirtualKeyState where
  status : VirtualKeyStatus
  keyCode : Int
  scanCode : Int
  downTime : Int
deriving DecidableEq

structure TouchScreenState where
  currentTouch : TouchData
  lastTouch : TouchData
  currentVirtualKey : CurrentVirtualKeyState
  downTime : Int
  useBadTouchFilter : Bool
  useJumpyTouchFilter : Bool
  useAveragingTouchFilter : Bool

structure Device where
  id : Int
  ignored : Bool
  isTouchScreen : Bool
  touchScreen : TouchScreenState

/-- Modelled from the spec: the virtual-key part of `InputDevice::reset()`
("reset device state" on device-added): status NONE, no active key. -/
def resetVirtualKey : CurrentVirtualKeyState :=
  ⟨VirtualKeyStatus.statusNone, -1, -1, 0⟩

def Device.empty : Device :=
  { id := 0, ignored := false, isTouchScreen := false,
    touchScreen :=
      { currentTouch := TouchData.clear, lastTouch := TouchData.clear,
        currentVirtualKey := resetVirtualKey, downTime := 0,
        useBadTouchFilter := false, useJumpyTouchFilter := false,
        useAveragingTouchFilter := false } }

structure ExportedState where
  virtualKeyCode : Int
  virtualScanCode : Int
deriving DecidableEq

structure ReaderState where
  devices : List Device
  exported : ExportedState

def getDevice (rs : ReaderState) (i : Nat) : Device := rs.devices.getD i Device.empty

def setDevice (rs : ReaderState) (i : Nat) (d : Device) : ReaderState :=
  { rs with devices := rs.devices.set i d }

def modifyDevice (rs : ReaderState) (i : Nat) (f : Device → Device) : ReaderState :=
  setDevice rs i (f (getDevice rs i))

/-- The scan of `updateExportedVirtualKeyState` (lines 1273-1285): the codes
of the last touch-screen device whose virtual key is DOWN, `(-1, -1)` if
none. -/
def computeExportedVirtualKey (devices : List Device) : Int × Int :=
  devices.foldl
    (fun acc d =>
      if d.isTouchScreen = true
          ∧ d.touchScreen.currentVirtualKey.status = VirtualKeyStatus.statusDown then
        (d.touchScreen.currentVirtualKey.keyCode,
          d.touchScreen.currentVirtualKey.scanCode)
      else acc)
    (-1, -1)

/-- `updateExportedVirtualKeyState` (lines 1273-1293): recompute the codes
from device state and store them into the exported state (under the
exported-state lock). -/
def updateExportedVirtualKeyState (rs : ReaderState) : ReaderState :=
  { rs with exported := ⟨(computeExportedVirtualKey rs.devices).1,
      (computeExportedVirtualKey rs.devices).2⟩ }

/-- Calls the reader makes to its collaborators while handling a frame. -/
inductive Effect where
  | appSwitchComing
  | refreshExportedVirtualKey
  | virtualKeyDownFeedback
  | notifyKey (action : Int) (flags : Nat) (keyCode scanCode downTime : Int)
      (policyFlags : Nat)
  | notifyMotion (ev : TouchEvent)

/-- `applyStandardInputDispatchPolicyActions` (lines 971-986): returns
whether DISPATCH was granted, the augmented policy flags, and the
app-switch notification if requested. -/
def applyStandardInputDispatchPolicyActions (policyActions policyFlags : Nat) :
    Bool × Nat × List Effect :=
  let effects :=
    if policyActions &&& ACTION_APP_SWITCH_COMING ≠ 0 then [Effect.appSwitchComing]
    else []
  let flags1 :=
    if policyActions &&& ACTION_WOKE_HERE ≠ 0 then policyFlags ||| POLICY_FLAG_WOKE_HERE
    else policyFlags
  let flags2 :=
    if policyActions &&& ACTION_BRIGHT_HERE ≠ 0 then flags1 ||| POLICY_FLAG_BRIGHT_HERE
    else flags1
  (policyActions &&& ACTION_DISPATCH ≠ 0, flags2, effects)

/-- `dispatchVirtualKey` (lines 691-712): refresh the exported virtual-key
state FIRST, then read the key data, give down feedback, consult the
policy (`vkPolicyActions` is `interceptKey`'s answer), and notify the
dispatcher when dispatch is granted.  The global meta state passed to
`notifyKey` does not interact with the virtual-key state and is not
modelled. -/
def dispatchVirtualKey (rs : ReaderState) (i : Nat) (policyFlags : Nat)
    (keyEventAction : Int) (keyEventFlags : Nat) (vkPolicyActions : Nat) :
    ReaderState × List Effect :=
  let rs1 := updateExportedVirtualKeyState rs
  let d := getDevice rs1 i
  let keyCode := d.touchScreen.currentVirtualKey.keyCode
  let scanCode := d.touchScreen.currentVirtualKey.scanCode
  let downTime := d.touchScreen.currentVirtualKey.downTime
  let feedback :=
    if keyEventAction = KEY_EVENT_ACTION_DOWN then [Effect.virtualKeyDownFeedback]
    else []
  let std := applyStandardInputDispatchPolicyActions vkPolicyActions policyFlags
  let keyEffects :=
    if std.1 then
      [Effect.notifyKey keyEventAction keyEventFlags keyCode scanCode downTime std.2.1]
    else []
  (rs1, Effect.refreshExportedVirtualKey :: (feedback ++ std.2.2 ++ keyEffects))

/-- The hit test of lines 643-650: a single pointer is still inside the
space of the active virtual key. -/
def hitMatchesActive (hit : Option VirtualKey) (keyCode : Int) : Bool :=
  match hit with
  | some virtualKey => virtualKey.keyCode == keyCode
  | none => false

/-- `consumeVirtualKeyTouches` (lines 617-689).  `hit` is the result of
`findVirtualKeyHit()` (implemented outside this translation unit; the
function is pure in the device state, so passing its result is faithful),
`vkPolicyActions` the policy's `interceptKey` answer should a key be
dispatched.  Returns the new reader state, whether the frame was consumed,
and the effects. -/
def consumeVirtualKeyTouches (rs : ReaderState) (i : Nat) (when : Int)
    (policyFlags : Nat) (hit : Option VirtualKey) (vkPolicyActions : Nat) :
    ReaderState × Bool × List Effect :=
  match (getDevice rs i).touchScreen.currentVirtualKey.status with
  | VirtualKeyStatus.statusCanceled =>
    if (getDevice rs i).touchScreen.currentTouch.pointerCount = 0 then
      -- Pointer went up after virtual key canceled.
      (modifyDevice rs i (fun dd =>
        { dd with touchScreen.currentVirtualKey.status := VirtualKeyStatus.statusUp }),
        true, [])
    else (rs, true, [])
  | VirtualKeyStatus.statusDown =>
    if (getDevice rs i).touchScreen.currentTouch.pointerCount = 0 then
      -- Pointer went up while virtual key was down.
      let rs1 := modifyDevice rs i (fun dd =>
        { dd with touchScreen.currentVirtualKey.status := VirtualKeyStatus.statusUp })
      let r := dispatchVirtualKey rs1 i policyFlags KEY_EVENT_ACTION_UP
        (KEY_EVENT_FLAG_FROM_SYSTEM ||| KEY_EVENT_FLAG_VIRTUAL_HARD_KEY) vkPolicyActions
      (r.1, true, r.2)
    else if (getDevice rs i).touchScreen.currentTouch.pointerCount = 1
        ∧ hitMatchesActive hit
            (getDevice rs i).touchScreen.currentVirtualKey.keyCode = true then
      -- Pointer is still within the space of the virtual key.
      (rs, true, [])
    else
      -- Pointer left the key area or another pointer also went down:
      -- send the key cancellation.
      let rs1 := modifyDevice rs i (fun dd =>
        { dd with touchScreen.currentVirtualKey.status :=
            VirtualKeyStatus.statusCanceled })
      let r := dispatchVirtualKey rs1 i policyFlags KEY_EVENT_ACTION_UP
        (KEY_EVENT_FLAG_FROM_SYSTEM ||| KEY_EVENT_FLAG_VIRTUAL_HARD_KEY
          ||| KEY_EVENT_FLAG_CANCELED) vkPolicyActions
      (r.1, true, r.2)
  | _ =>
    -- STATUS_NONE / STATUS_UP: check for a fresh virtual key press.
    if (getDevice rs i).touchScreen.currentTouch.pointerCount = 1
        ∧ (getDevice rs i).touchScreen.lastTouch.pointerCount = 0 then
      match hit with
      | some virtualKey =>
        let rs1 := modifyDevice rs i (fun dd =>
          { dd with touchScreen.currentVirtualKey :=
              { status := VirtualKeyStatus.statusDown, downTime := when,
                keyCode := virtualKey.keyCode, scanCode := virtualKey.scanCode } })
        let r := dispatchVirtualKey rs1 i policyFlags KEY_EVENT_ACTION_DOWN
          (KEY_EVENT_FLAG_FROM_SYSTEM ||| KEY_EVENT_FLAG_VIRTUAL_HARD_KEY)
          vkPolicyActions
        (r.1, true, r.2)
      | none => (rs, false, [])
    else (rs, false, [])

/-- The pointer-preprocessing block of `onTouchScreenChanged` (lines
578-605): bad-touch filter, jumpy-touch filter, pointer-id calculation
when driver ids are unusable, averaging filter.  Returns the filtered
touch-screen state and the frame to store into `lastTouch` afterwards
(the pre-averaging frame when averaging is on, per lines 596-605). -/
def preprocessTouch (ts0 : TouchScreenState)
    (applyBadTouchFilter applyJumpyTouchFilter :
      TouchScreenState → TouchScreenState × Bool)
    (calculatePointerIds : TouchScreenState → TouchScreenState)
    (applyAveragingTouchFilter : TouchScreenState → TouchScreenState)
    (havePointerIds : Bool) : TouchScreenState × TouchData :=
  let r1 := if ts0.useBadTouchFilter then applyBadTouchFilter ts0 else (ts0, false)
  let hpi1 := havePointerIds && !r1.2
  let r2 := if r1.1.useJumpyTouchFilter then applyJumpyTouchFilter r1.1
    else (r1.1, false)
  let hpi2 := hpi1 && !r2.2
  let ts3 := if hpi2 = false then calculatePointerIds r2.1 else r2.1
  let ts4 := if ts3.useAveragingTouchFilter then applyAveragingTouchFilter ts3
    else ts3
  (ts4, ts3.currentTouch)

/-- `onTouchScreenChanged` (lines 566-615): consult the touch policy; on a
drop clear `lastTouch` and stop; otherwise run the filters, the
virtual-key machine, and touch dispatch, then save the (pre-averaging)
current frame as `lastTouch`.  The `downTime` side effect of a DOWN inside
`dispatchTouches` is not modelled (it feeds only event timestamps). -/
def onTouchScreenChanged (rs : ReaderState) (i : Nat) (when : Int)
    (touchPolicyActions : Nat)
    (applyBadTouchFilter applyJumpyTouchFilter :
      TouchScreenState → TouchScreenState × Bool)
    (calculatePointerIds : TouchScreenState → TouchScreenState)
    (applyAveragingTouchFilter : TouchScreenState → TouchScreenState)
    (havePointerIds : Bool) (hit : Option VirtualKey) (vkPolicyActions : Nat) :
    ReaderState × List Effect :=
  if (applyStandardInputDispatchPolicyActions touchPolicyActions 0).1 = false then
    (modifyDevice rs i (fun d => { d with touchScreen.lastTouch := TouchData.clear }),
      (applyStandardInputDispatchPolicyActions touchPolicyActions 0).2.2)
  else
    let std := applyStandardInputDispatchPolicyActions touchPolicyActions 0
    let pre := preprocessTouch (getDevice rs i).touchScreen applyBadTouchFilter
      applyJumpyTouchFilter calculatePointerIds applyAveragingTouchFilter
      havePointerIds
    let rs1 := setDevice rs i { getDevice rs i with touchScreen := pre.1 }
    let c := consumeVirtualKeyTouches rs1 i when std.2.1 hit vkPolicyActions
    let motionEffects :=
      if c.2.1 then []
      else
        ((dispatchTouches (getDevice c.1 i).touchScreen.currentTouch
          (getDevice c.1 i).touchScreen.lastTouch).map Effect.notifyMotion)
    let rs2 := modifyDevice c.1 i (fun d => { d with touchScreen.lastTouch := pre.2 })
    (rs2, std.2.2 ++ c.2.2 ++ motionEffects)

/-- Modelled from the spec: `InputDevice::reset()` on device-added clears
the per-device state; for this model the virtual-key state and the touch
frames. -/
def deviceReset (d : Device) : Device :=
  { d with touchScreen :=
      { d.touchScreen with
          currentVirtualKey := resetVirtualKey
          currentTouch := TouchData.clear
          lastTouch := TouchData.clear } }

/-- `addDevice` (lines 1030-1054): the new device is reset (virtual key
state NONE, empty frames) and appended; a non-ignored device triggers
`onConfigurationChanged`, which refreshes the exported virtual-key state. -/
def addDeviceOp (rs : ReaderState) (d : Device) : ReaderState :=
  if (deviceReset d).ignored then
    { rs with devices := rs.devices ++ [deviceReset d] }
  else
    updateExportedVirtualKeyState { rs with devices := rs.devices ++ [deviceReset d] }

/-- `removeDevice` (lines 1056-1070): the device is removed; if it was not
ignored, `onConfigurationChanged` refreshes the exported virtual-key
state. -/
def removeDeviceOp (rs : ReaderState) (i : Nat) : ReaderState :=
  if (getDevice rs i).ignored then
    { rs with devices := rs.devices.eraseIdx i }
  else
    updateExportedVirtualKeyState { rs with devices := rs.devices.eraseIdx i }

/-- The reader state right after the constructor (lines 120-128), which
calls `updateExportedVirtualKeyState` on the empty registry. -/
def initialReaderState : ReaderState :=
  updateExportedVirtualKeyState ⟨[], ⟨-1, -1⟩⟩

/-- One reader-loop iteration's effect on the virtual-key/exported state:
the operations of the loop that can modify a device's
`currentVirtualKey`, the device list, or the exported state.  A touch
frame reaches `onTouchScreenChanged` only for a non-ignored touch-screen
device (`getNonIgnoredDevice`, lines 206-208 and 1025-1028); virtual keys
obtained from `scancodeToKeycode` are real key codes, never the -1
sentinel; and the touch filters, pointer-id calculation and averaging
(implemented outside this translation unit) transform touch frames only,
never the virtual-key state. -/
inductive ReaderStep : ReaderState → ReaderState → Prop where
  | touchFrame (rs : ReaderState) (i : Nat) (when : Int) (touchPolicyActions : Nat)
      (bad jumpy : TouchScreenState → TouchScreenState × Bool)
      (calcIds avg : TouchScreenState → TouchScreenState)
      (havePointerIds : Bool) (hit : Option VirtualKey) (vkPolicyActions : Nat)
      (htouch : (getDevice rs i).isTouchScreen = true)
      (hignored : (getDevice rs i).ignored = false)
      (hhit : ∀ vk, hit = some vk → vk.keyCode ≠ -1)
      (hbad : ∀ ts, ((bad ts).1).currentVirtualKey = ts.currentVirtualKey)
      (hjumpy : ∀ ts, ((jumpy ts).1).currentVirtualKey = ts.currentVirtualKey)
      (hcalc : ∀ ts, (calcIds ts).currentVirtualKey = ts.currentVirtualKey)
      (havg : ∀ ts, (avg ts).currentVirtualKey = ts.currentVirtualKey) :
      ReaderStep rs (onTouchScreenChanged rs i when touchPolicyActions bad jumpy
        calcIds avg havePointerIds hit vkPolicyActions).1
  | addDevice (rs : ReaderState) (d : Device) : ReaderStep rs (addDeviceOp rs d)
  | removeDevice (rs : ReaderState) (i : Nat) : ReaderStep rs (removeDeviceOp rs i)
  | configChanged (rs : ReaderState) :
      ReaderStep rs (updateExportedVirtualKeyState rs)

def vkDown (d : Device) : Prop :=
  d.touchScreen.currentVirtualKey.status = VirtualKeyStatus.statusDown

/-- Devices only reach virtual-key DOWN when they are non-ignored touch
screens carrying a real key code. -/
def DevicesWellFormed (devices : List Device) : Prop :=
  ∀ d ∈ devices, vkDown d →
    d.isTouchScreen = true ∧ d.ignored = false
      ∧ d.touchScreen.currentVirtualKey.keyCode ≠ -1

/-- The exported-state invariant of C3 plus the auxiliary facts that make
it inductive. -/
def ReaderInvariant (rs : ReaderState) : Prop :=
  DevicesWellFormed rs.devices
  ∧ (rs.exported.virtualKeyCode ≠ -1 ↔ ∃ d ∈ rs.devices, vkDown d)
  ∧ (rs.exported.virtualKeyCode ≠ -1 →
      ∃ d ∈ rs.devices, vkDown d
        ∧ d.touchScreen.currentVirtualKey.keyCode = rs.exported.virtualKeyCode)

/-! ### Characterization of the exported-state scan -/

/-- The scan body of `updateExportedVirtualKeyState` over an arbitrary
starting accumulator. -/
def exportScan (init : Int × Int) (devices : List Device) : Int × Int :=
  devices.foldl
    (fun acc d =>
      if d.isTouchScreen = true
          ∧ d.touchScreen.currentVirtualKey.status = VirtualKeyStatus.statusDown then
        (d.touchScreen.currentVirtualKey.keyCode,
          d.touchScreen.currentVirtualKey.scanCode)
      else acc)
    init

lemma computeExportedVirtualKey_eq_scan (devices : List Device) :
    computeExportedVirtualKey devices = exportScan (-1, -1) devices := rfl

lemma exportScan_of_no_down (devices : List Device) (init : Int × Int)
    (h : ∀ d ∈ devices, ¬(d.isTouchScreen = true ∧ vkDown d)) :
    exportScan init devices = init := by
  simp only [vkDown] at h
  induction devices generalizing init with
  | nil => rfl
  | cons d rest ih =>
    rw [exportScan, List.foldl_cons]
    rw [if_neg (h d (List.mem_cons_self d rest))]
    exact ih init fun d' hd' => h d' (List.mem_cons_of_mem d hd')

lemma exportScan_of_down (devices : List Device) (init : Int × Int)
    (h : ∃ d ∈ devices, d.isTouchScreen = true ∧ vkDown d) :
    ∃ d ∈ devices, (d.isTouchScreen = true ∧ vkDown d)
      ∧ exportScan init devices
        = (d.touchScreen.currentVirtualKey.keyCode,
            d.touchScreen.currentVirtualKey.scanCode) := by
  induction devices generalizing init with
  | nil => simp at h
  | cons d rest ih =>
    by_cases hrest : ∃ d' ∈ rest, d'.isTouchScreen = true ∧ vkDown d'
    · obtain ⟨d', hmem, hp, heq⟩ := ih _ hrest
      exact ⟨d', List.mem_cons_of_mem d hmem, hp, by rw [exportScan, List.foldl_cons]; exact heq⟩
    · have hd : d.isTouchScreen = true ∧ vkDown d := by
        obtain ⟨d', hmem, hp⟩ := h
        rcases List.mem_cons.mp hmem with rfl | hmem'
        · exact hp
        · exact absurd ⟨d', hmem', hp⟩ hrest
      push_neg at hrest
      refine ⟨d, List.mem_cons_self d rest, hd, ?_⟩
      rw [exportScan, List.foldl_cons, if_pos ⟨hd.1, hd.2⟩]
      exact exportScan_of_no_down rest _ fun d' hd' hp' => hrest d' hd' hp'.1 hp'.2

/-- Refreshing the exported state establishes the whole invariant, given
only device well-formedness. -/
lemma updateExported_establishes (rs : ReaderState)
    (h : DevicesWellFormed rs.devices) :
    ReaderInvariant (updateExportedVirtualKeyState rs) := by
  refine ⟨h, ?_⟩
  by_cases hex : ∃ d ∈ rs.devices, vkDown d
  · obtain ⟨d0, hmem0, hdown0⟩ := hex
    have htouch0 := (h d0 hmem0 hdown0).1
    obtain ⟨d1, hmem1, hp1, heq1⟩ :=
      exportScan_of_down rs.devices (-1, -1) ⟨d0, hmem0, htouch0, hdown0⟩
    have hkc1 := (h d1 hmem1 hp1.2).2.2
    have hexp : (updateExportedVirtualKeyState rs).exported.virtualKeyCode
        = d1.touchScreen.currentVirtualKey.keyCode := by
      rw [updateExportedVirtualKeyState, computeExportedVirtualKey_eq_scan, heq1]
    constructor
    · rw [hexp]
      exact ⟨fun _ => ⟨d0, hmem0, hdown0⟩, fun _ => hkc1⟩
    · intro _
      exact ⟨d1, hmem1, hp1.2, hexp.symm⟩
  · have hall : ∀ d ∈ rs.devices, ¬(d.isTouchScreen = true ∧ vkDown d) := by
      intro d hd hp
      exact hex ⟨d, hd, hp.2⟩
    have hexp : (updateExportedVirtualKeyState rs).exported.virtualKeyCode = -1 := by
      rw [updateExportedVirtualKeyState, computeExportedVirtualKey_eq_scan,
        exportScan_of_no_down rs.devices (-1, -1) hall]
    constructor
    · rw [hexp]
      simp only [ne_eq, not_true_eq_false, false_iff]
      intro hc
      obtain ⟨d, hd, hdown⟩ := hc
      exact hex ⟨d, hd, hdown⟩
    · rw [hexp]
      intro hc
      exact absurd rfl hc

/-! ### Positional reasoning about the device list -/

lemma getDevice_mem {rs : ReaderState} {i : Nat} (hi : i < rs.devices.length) :
    getDevice rs i ∈ rs.devices := by
  unfold getDevice
  rw [List.getD_eq_getElem _ _ hi]
  exact List.getElem_mem hi

lemma exists_mem_set_iff {l : List Device} {i : Nat} {v : Device}
    (Q : Device → Prop) (hQ : Q v ↔ Q (l.getD i Device.empty)) :
    (∃ d ∈ l.set i v, Q d) ↔ (∃ d ∈ l, Q d) := by
  by_cases hi : i < l.length
  · rw [List.getD_eq_getElem l Device.empty hi] at hQ
    constructor
    · rintro ⟨d, hd, hq⟩
      rcases List.mem_or_eq_of_mem_set hd with hmem | rfl
      · exact ⟨d, hmem, hq⟩
      · exact ⟨l[i], List.getElem_mem hi, hQ.mp hq⟩
    · rintro ⟨d, hd, hq⟩
      obtain ⟨j, hj, rfl⟩ := List.mem_iff_getElem.mp hd
      by_cases hji : i = j
      · subst hji
        have hsi : i < (l.set i v).length := by simpa using hi
        have hv : (l.set i v)[i] = v := by
          rw [List.getElem_set]
          simp
        have hmem : (l.set i v)[i] ∈ l.set i v := List.getElem_mem hsi
        rw [hv] at hmem
        exact ⟨v, hmem, hQ.mpr hq⟩
      · have hsj : j < (l.set i v).length := by simpa using hj
        have hv : (l.set i v)[j] = l[j] := by
          rw [List.getElem_set]
          simp [hji]
        have hmem : (l.set i v)[j] ∈ l.set i v := List.getElem_mem hsj
        rw [hv] at hmem
        exact ⟨l[j], hmem, hq⟩
  · rw [List.set_eq_of_length_le (by omega)]

lemma exists_mem_eraseIdx_iff {l : List Device} {i : Nat} (hi : i < l.length)
    (Q : Device → Prop) (hQ : ¬Q l[i]) :
    (∃ d ∈ l.eraseIdx i, Q d) ↔ (∃ d ∈ l, Q d) := by
  rw [List.eraseIdx_eq_take_drop_succ]
  constructor
  · rintro ⟨d, hd, hq⟩
    rcases List.mem_append.mp hd with hmem | hmem
    · exact ⟨d, List.mem_of_mem_take hmem, hq⟩
    · exact ⟨d, List.mem_of_mem_drop hmem, hq⟩
  · rintro ⟨d, hd, hq⟩
    have hl : l = l.take i ++ l[i] :: l.drop (i + 1) := by
      conv_lhs => rw [← List.take_append_drop i l]
      rw [List.drop_eq_getElem_cons hi]
    rw [hl] at hd
    rcases List.mem_append.mp hd with hmem | hmem
    · exact ⟨d, List.mem_append.mpr (Or.inl hmem), hq⟩
    · rcases List.mem_cons.mp hmem with rfl | hmem'
      · exact absurd hq hQ
      · exact ⟨d, List.mem_append.mpr (Or.inr hmem'), hq⟩

lemma devicesWellFormed_set {l : List Device} {i : Nat} {v : Device}
    (h : DevicesWellFormed l)
    (hv : vkDown v → v.isTouchScreen = true ∧ v.ignored = false
      ∧ v.touchScreen.currentVirtualKey.keyCode ≠ -1) :
    DevicesWellFormed (l.set i v) := by
  intro d hd hdown
  rcases List.mem_or_eq_of_mem_set hd with hmem | rfl
  · exact h d hmem hdown
  · exact hv hdown

/-- Replacing device `i` with one whose DOWN-ness and, when down, key data
agree with the old device's preserves the invariant. -/
lemma invariant_set_equiv {rs : ReaderState} {i : Nat} {v : Device}
    (h : ReaderInvariant rs)
    (hequiv : vkDown v ↔ vkDown (getDevice rs i))
    (hkeep : vkDown v → v.isTouchScreen = true ∧ v.ignored = false
      ∧ v.touchScreen.currentVirtualKey.keyCode
        = (getDevice rs i).touchScreen.currentVirtualKey.keyCode) :
    ReaderInvariant (setDevice rs i v) := by
  obtain ⟨hwf, hiff, hwit⟩ := h
  have hkc : vkDown v → v.touchScreen.currentVirtualKey.keyCode ≠ -1 := by
    intro hdown
    rw [(hkeep hdown).2.2]
    by_cases hi : i < rs.devices.length
    · have := getDevice_mem hi
      exact (hwf _ this (hequiv.mp hdown)).2.2
    · exfalso
      have : getDevice rs i = Device.empty := by
        unfold getDevice
        exact List.getD_eq_default _ _ (by omega)
      rw [this] at hequiv
      exact absurd (hequiv.mp hdown) (by simp [vkDown, Device.empty, resetVirtualKey])
  refine ⟨devicesWellFormed_set hwf
    (fun hdown => ⟨(hkeep hdown).1, (hkeep hdown).2.1, hkc hdown⟩), ?_, ?_⟩
  · rw [show (setDevice rs i v).exported = rs.exported from rfl]
    rw [hiff]
    exact (exists_mem_set_iff vkDown hequiv).symm
  · intro hne
    rw [show (setDevice rs i v).exported = rs.exported from rfl] at hne ⊢
    have hold := hwit hne
    refine (exists_mem_set_iff
      (fun d => vkDown d
        ∧ d.touchScreen.currentVirtualKey.keyCode = rs.exported.virtualKeyCode)
      ?_).mpr hold
    rw [show rs.devices.getD i Device.empty = getDevice rs i from rfl]
    constructor
    · rintro ⟨hdown, hkcv⟩
      exact ⟨hequiv.mp hdown, by rw [← (hkeep hdown).2.2]; exact hkcv⟩
    · rintro ⟨hdown, hkcv⟩
      have hvd := hequiv.mpr hdown
      exact ⟨hvd, by rw [(hkeep hvd).2.2]; exact hkcv⟩

/-- Modifying device `i` by a function that does not touch its class,
ignored flag or virtual-key state preserves the invariant. -/
lemma invariant_modify_preserving {rs : ReaderState} {i : Nat}
    (f : Device → Device)
    (hf : ∀ d, (f d).isTouchScreen = d.isTouchScreen ∧ (f d).ignored = d.ignored
      ∧ (f d).touchScreen.currentVirtualKey = d.touchScreen.currentVirtualKey)
    (h : ReaderInvariant rs) : ReaderInvariant (modifyDevice rs i f) := by
  refine invariant_set_equiv h ?_ ?_
  · unfold vkDown
    rw [(hf (getDevice rs i)).2.2]
  · intro hdown
    have hd : vkDown (getDevice rs i) := by
      unfold vkDown at hdown ⊢
      rw [(hf (getDevice rs i)).2.2] at hdown
      exact hdown
    by_cases hi : i < rs.devices.length
    · have hmem := getDevice_mem hi
      obtain ⟨ht, hig, _⟩ := h.1 _ hmem hd
      exact ⟨by rw [(hf _).1]; exact ht, by rw [(hf _).2.1]; exact hig,
        by rw [(hf _).2.2]⟩
    · exfalso
      have : getDevice rs i = Device.empty := by
        unfold getDevice
        exact List.getD_eq_default _ _ (by omega)
      rw [this] at hd
      exact absurd hd (by simp [vkDown, Device.empty, resetVirtualKey])

/-! ### Invariant preservation by the reader operations -/

lemma dispatchVirtualKey_fst (rs : ReaderState) (i : Nat) (policyFlags : Nat)
    (keyEventAction : Int) (keyEventFlags vkPolicyActions : Nat) :
    (dispatchVirtualKey rs i policyFlags keyEventAction keyEventFlags
      vkPolicyActions).1 = updateExportedVirtualKeyState rs := rfl

lemma vkDown_of_status_set {d : Device} {st : VirtualKeyStatus}
    (hst : st ≠ VirtualKeyStatus.statusDown) :
    ¬vkDown { d with touchScreen.currentVirtualKey.status := st } := by
  simp [vkDown]
  exact hst

lemma consumeVirtualKeyTouches_invariant (rs : ReaderState) (i : Nat) (when : Int)
    (policyFlags : Nat) (hit : Option VirtualKey) (vkPolicyActions : Nat)
    (h : ReaderInvariant rs)
    (htouch : (getDevice rs i).isTouchScreen = true)
    (hignored : (getDevice rs i).ignored = false)
    (hhit : ∀ vk, hit = some vk → vk.keyCode ≠ -1) :
    ReaderInvariant (consumeVirtualKeyTouches rs i when policyFlags hit
      vkPolicyActions).1 := by
  unfold consumeVirtualKeyTouches
  split
  · -- STATUS_CANCELED
    next hstat =>
    split_ifs with hpc
    · refine invariant_set_equiv h ?_ ?_
      · constructor
        · intro hv
          exact absurd hv (vkDown_of_status_set (by simp))
        · intro hv
          rw [vkDown, hstat] at hv
          simp at hv
      · intro hv
        exact absurd hv (vkDown_of_status_set (by simp))
    · exact h
  · -- STATUS_DOWN
    next hstat =>
    split_ifs with hpc hmatch
    · dsimp only
      rw [dispatchVirtualKey_fst]
      apply updateExported_establishes
      refine devicesWellFormed_set h.1 ?_
      intro hv
      exact absurd hv (vkDown_of_status_set (by simp))
    · exact h
    · dsimp only
      rw [dispatchVirtualKey_fst]
      apply updateExported_establishes
      refine devicesWellFormed_set h.1 ?_
      intro hv
      exact absurd hv (vkDown_of_status_set (by simp))
  · -- STATUS_NONE / STATUS_UP
    split_ifs with hpc
    · match hit, hhit with
      | some virtualKey, hhit =>
        dsimp only
        rw [dispatchVirtualKey_fst]
        apply updateExported_establishes
        refine devicesWellFormed_set h.1 ?_
        intro _
        exact ⟨htouch, hignored, hhit virtualKey rfl⟩
      | none, _ => exact h
    · exact h

lemma addDeviceOp_invariant (rs : ReaderState) (d : Device)
    (h : ReaderInvariant rs) : ReaderInvariant (addDeviceOp rs d) := by
  unfold addDeviceOp
  have hnew : ¬vkDown (deviceReset d) := by
    simp [vkDown, deviceReset, resetVirtualKey]
  have hwf : DevicesWellFormed (rs.devices ++ [deviceReset d]) := by
    intro d' hd' hdown
    rcases List.mem_append.mp hd' with hmem | hmem
    · exact h.1 d' hmem hdown
    · rw [List.mem_singleton.mp hmem] at hdown
      exact absurd hdown hnew
  split_ifs with hign
  · refine ⟨hwf, ?_, ?_⟩
    · rw [h.2.1]
      constructor
      · rintro ⟨d', hmem, hdown⟩
        exact ⟨d', List.mem_append.mpr (Or.inl hmem), hdown⟩
      · rintro ⟨d', hmem, hdown⟩
        rcases List.mem_append.mp hmem with hmem' | hmem'
        · exact ⟨d', hmem', hdown⟩
        · rw [List.mem_singleton.mp hmem'] at hdown
          exact absurd hdown hnew
    · intro hne
      obtain ⟨d', hmem, hdown, hkc⟩ := h.2.2 hne
      exact ⟨d', List.mem_append.mpr (Or.inl hmem), hdown, hkc⟩
  · exact updateExported_establishes _ hwf

lemma removeDeviceOp_invariant (rs : ReaderState) (i : Nat)
    (h : ReaderInvariant rs) : ReaderInvariant (removeDeviceOp rs i) := by
  unfold removeDeviceOp
  have hwf : DevicesWellFormed (rs.devices.eraseIdx i) := by
    intro d' hd' hdown
    exact h.1 d' (List.eraseIdx_subset rs.devices i hd') hdown
  split_ifs with hign
  · by_cases hi : i < rs.devices.length
    · have hgd : getDevice rs i = rs.devices[i] := by
        unfold getDevice
        exact List.getD_eq_getElem _ _ hi
      have hnd : ¬vkDown rs.devices[i] := by
        intro hdown
        have := (h.1 _ (List.getElem_mem hi) hdown).2.1
        rw [← hgd] at this
        rw [this] at hign
        exact Bool.false_ne_true hign
      refine ⟨hwf, ?_, ?_⟩
      · rw [h.2.1]
        exact (exists_mem_eraseIdx_iff hi vkDown hnd).symm
      · intro hne
        refine (exists_mem_eraseIdx_iff hi
          (fun d => vkDown d ∧ d.touchScreen.currentVirtualKey.keyCode
            = rs.exported.virtualKeyCode) ?_).mpr (h.2.2 hne)
        rintro ⟨hdown, _⟩
        exact hnd hdown
    · rw [List.eraseIdx_of_length_le (by omega)]
      exact ⟨h.1, h.2.1, h.2.2⟩
  · exact updateExported_establishes _ hwf

lemma preprocessTouch_currentVirtualKey (ts0 : TouchScreenState)
    (bad jumpy : TouchScreenState → TouchScreenState × Bool)
    (calcIds avg : TouchScreenState → TouchScreenState) (hpi : Bool)
    (hbad : ∀ ts, ((bad ts).1).currentVirtualKey = ts.currentVirtualKey)
    (hjumpy : ∀ ts, ((jumpy ts).1).currentVirtualKey = ts.currentVirtualKey)
    (hcalc : ∀ ts, (calcIds ts).currentVirtualKey = ts.currentVirtualKey)
    (havg : ∀ ts, (avg ts).currentVirtualKey = ts.currentVirtualKey) :
    (preprocessTouch ts0 bad jumpy calcIds avg hpi).1.currentVirtualKey
      = ts0.currentVirtualKey := by
  unfold preprocessTouch
  simp only []
  split_ifs <;> simp [hbad, hjumpy, hcalc, havg]

lemma getDevice_setDevice_self (rs : ReaderState) (i : Nat) (v : Device)
    (hi : i < rs.devices.length) : getDevice (setDevice rs i v) i = v := by
  unfold getDevice setDevice
  rw [List.getD_eq_getElem _ _ (by simpa using hi), List.getElem_set]
  simp

lemma isTouchScreen_lt_length {rs : ReaderState} {i : Nat}
    (htouch : (getDevice rs i).isTouchScreen = true) : i < rs.devices.length := by
  by_contra hi
  have he : getDevice rs i = Device.empty := by
    unfold getDevice
    exact List.getD_eq_default _ _ (by omega)
  rw [he] at htouch
  exact absurd htouch (by simp [Device.empty])

lemma onTouchScreenChanged_invariant (rs : ReaderState) (i : Nat) (when : Int)
    (touchPolicyActions : Nat)
    (bad jumpy : TouchScreenState → TouchScreenState × Bool)
    (calcIds avg : TouchScreenState → TouchScreenState)
    (havePointerIds : Bool) (hit : Option VirtualKey) (vkPolicyActions : Nat)
    (h : ReaderInvariant rs)
    (htouch : (getDevice rs i).isTouchScreen = true)
    (hignored : (getDevice rs i).ignored = false)
    (hhit : ∀ vk, hit = some vk → vk.keyCode ≠ -1)
    (hbad : ∀ ts, ((bad ts).1).currentVirtualKey = ts.currentVirtualKey)
    (hjumpy : ∀ ts, ((jumpy ts).1).currentVirtualKey = ts.currentVirtualKey)
    (hcalc : ∀ ts, (calcIds ts).currentVirtualKey = ts.currentVirtualKey)
    (havg : ∀ ts, (avg ts).currentVirtualKey = ts.currentVirtualKey) :
    ReaderInvariant (onTouchScreenChanged rs i when touchPolicyActions bad jumpy
      calcIds avg havePointerIds hit vkPolicyActions).1 := by
  have hlen : i < rs.devices.length := isTouchScreen_lt_length htouch
  have hvkpre := preprocessTouch_currentVirtualKey (getDevice rs i).touchScreen
    bad jumpy calcIds avg havePointerIds hbad hjumpy hcalc havg
  unfold onTouchScreenChanged
  split_ifs with hdisp
  · exact invariant_modify_preserving _ (fun d => ⟨rfl, rfl, rfl⟩) h
  · simp only []
    refine invariant_modify_preserving _ (fun d => ⟨rfl, rfl, rfl⟩) ?_
    have hinv1 : ReaderInvariant (setDevice rs i
        { getDevice rs i with touchScreen :=
            (preprocessTouch (getDevice rs i).touchScreen bad jumpy calcIds avg
              havePointerIds).1 }) := by
      refine invariant_set_equiv h ?_ ?_
      · unfold vkDown
        rw [show ({ getDevice rs i with touchScreen :=
            (preprocessTouch (getDevice rs i).touchScreen bad jumpy calcIds avg
              havePointerIds).1 } : Device).touchScreen.currentVirtualKey
          = (preprocessTouch (getDevice rs i).touchScreen bad jumpy calcIds avg
              havePointerIds).1.currentVirtualKey from rfl, hvkpre]
      · intro hdown
        exact ⟨htouch, hignored, by
          rw [show ({ getDevice rs i with touchScreen :=
              (preprocessTouch (getDevice rs i).touchScreen bad jumpy calcIds avg
                havePointerIds).1 } : Device).touchScreen.currentVirtualKey
            = (preprocessTouch (getDevice rs i).touchScreen bad jumpy calcIds avg
                havePointerIds).1.currentVirtualKey from rfl, hvkpre]⟩
    have hget1 := getDevice_setDevice_self rs i
      { getDevice rs i with touchScreen :=
          (preprocessTouch (getDevice rs i).touchScreen bad jumpy calcIds avg
            havePointerIds).1 } hlen
    apply consumeVirtualKeyTouches_invariant _ _ _ _ _ _ hinv1
    · rw [hget1]
      exact htouch
    · rw [hget1]
      exact hignored
    · exact hhit

lemma initialReaderState_invariant : ReaderInvariant initialReaderState := by
  apply updateExported_establishes
  intro d hd
  simp at hd

lemma readerStep_invariant {rs rs' : ReaderState} (h : ReaderInvariant rs)
    (st : ReaderStep rs rs') : ReaderInvariant rs' := by
  cases st with
  | touchFrame i when touchPolicyActions bad jumpy calcIds avg havePointerIds
      hit vkPolicyActions htouch hignored hhit hbad hjumpy hcalc havg =>
    exact onTouchScreenChanged_invariant rs i when touchPolicyActions bad jumpy
      calcIds avg havePointerIds hit vkPolicyActions h htouch hignored hhit
      hbad hjumpy hcalc havg
  | addDevice d => exact addDeviceOp_invariant rs d h
  | removeDevice i => exact removeDeviceOp_invariant rs i h
  | configChanged => exact updateExported_establishes rs h.1

/-- C3: in every reader state reachable from the freshly constructed reader
by reader-loop iterations (touch frames, device add/remove, configuration
changes), the exported virtual key code differs from -1 exactly when some
device's current-virtual-key status is DOWN, and when it does differ it
equals the key code of such a device's active virtual key. -/
theorem exported_virtual_key_invariant (rs : ReaderState)
    (h : Relation.ReflTransGen ReaderStep initialReaderState rs) :
    (rs.exported.virtualKeyCode ≠ -1
      ↔ ∃ d ∈ rs.devices,
          d.touchScreen.currentVirtualKey.status = VirtualKeyStatus.statusDown)
    ∧ (rs.exported.virtualKeyCode ≠ -1 →
        ∃ d ∈ rs.devices,
          d.touchScreen.currentVirtualKey.status = VirtualKeyStatus.statusDown
            ∧ d.touchScreen.currentVirtualKey.keyCode = rs.exported.virtualKeyCode) := by
  have hinv : ReaderInvariant rs := by
    induction h with
    | refl => exact initialReaderState_invariant
    | tail _ hstep ih => exact readerStep_invariant ih hstep
  exact ⟨hinv.2.1, hinv.2.2⟩

/-- Witness for `exported_virtual_key_invariant` at the initial reader
state (the reflexive reachability witness). -/
theorem exported_virtual_key_invariant_witness :
    (initialReaderState.exported.virtualKeyCode ≠ -1
      ↔ ∃ d ∈ initialReaderState.devices,
          d.touchScreen.currentVirtualKey.status = VirtualKeyStatus.statusDown)
    ∧ (initialReaderState.exported.virtualKeyCode ≠ -1 →
        ∃ d ∈ initialReaderState.devices,
          d.touchScreen.currentVirtualKey.status = VirtualKeyStatus.statusDown
            ∧ d.touchScreen.currentVirtualKey.keyCode
              = initialReaderState.exported.virtualKeyCode) :=
  exported_virtual_key_invariant initialReaderState Relation.ReflTransGen.refl

/-! ### Refreshing of the exported state on virtual-key transitions (C6) -/

lemma updateExported_devices (rs : ReaderState) :
    (updateExportedVirtualKeyState rs).devices = rs.devices := rfl

/-- A reader state whose single touch-screen device sits in virtual-key
CANCELED with no pointer down; the exported pair is deliberately
distinguishable from what a refresh would store. -/
def canceledStateExample : ReaderState :=
  { devices := [
      { id := 1
        ignored := false
        isTouchScreen := true
        touchScreen :=
          { currentTouch := TouchData.clear
            lastTouch := TouchData.clear
            currentVirtualKey := ⟨VirtualKeyStatus.statusCanceled, 5, 6, 0⟩
            downTime := 0
            useBadTouchFilter := false
            useJumpyTouchFilter := false
            useAveragingTouchFilter := false } }]
    exported := ⟨7, 8⟩ }

/-- C6 (counterexample): the CANCELED→UP transition of
`consumeVirtualKeyTouches` (InputReader.cpp lines 620-626) performs NO
refresh of the exported virtual-key state: the status changes from
CANCELED to UP, yet the effect list is empty (no
`updateExportedVirtualKeyState` call) and the exported key code keeps its
prior value 7 even though a refresh would store -1. -/
theorem consumeVirtualKey_canceledUp_skips_refresh :
    (getDevice canceledStateExample 0).touchScreen.currentVirtualKey.status
        = VirtualKeyStatus.statusCanceled
      ∧ (getDevice (consumeVirtualKeyTouches canceledStateExample 0 0 0 none
            0).1 0).touchScreen.currentVirtualKey.status
        = VirtualKeyStatus.statusUp
      ∧ (consumeVirtualKeyTouches canceledStateExample 0 0 0 none 0).2.2 = []
      ∧ (consumeVirtualKeyTouches canceledStateExample 0 0 0 none
          0).1.exported.virtualKeyCode = 7
      ∧ (computeExportedVirtualKey (consumeVirtualKeyTouches canceledStateExample
          0 0 0 none 0).1.devices).1 = -1 :=
  ⟨rfl, rfl, rfl, rfl, rfl⟩

/-- C6 (amended): on every virtual-key state transition that dispatches a
virtual key — NONE/UP→DOWN, DOWN→UP and DOWN→CANCELED, i.e. every
transition out of a non-CANCELED state — the exported virtual-key code
and scan code are refreshed (recomputed from device state and stored)
before the transition's processing completes; only the CANCELED→UP
transition omits the refresh. -/
theorem consumeVirtualKey_refreshes_on_dispatching_transition
    (rs : ReaderState) (i : Nat) (when : Int) (policyFlags : Nat)
    (hit : Option VirtualKey) (vkPolicyActions : Nat)
    (hold : (getDevice rs i).touchScreen.currentVirtualKey.status
      ≠ VirtualKeyStatus.statusCanceled)
    (hchange : (getDevice (consumeVirtualKeyTouches rs i when policyFlags hit
        vkPolicyActions).1 i).touchScreen.currentVirtualKey.status
      ≠ (getDevice rs i).touchScreen.currentVirtualKey.status) :
    Effect.refreshExportedVirtualKey
        ∈ (consumeVirtualKeyTouches rs i when policyFlags hit vkPolicyActions).2.2
      ∧ (consumeVirtualKeyTouches rs i when policyFlags hit
          vkPolicyActions).1.exported
        = ⟨(computeExportedVirtualKey (consumeVirtualKeyTouches rs i when
              policyFlags hit vkPolicyActions).1.devices).1,
            (computeExportedVirtualKey (consumeVirtualKeyTouches rs i when
              policyFlags hit vkPolicyActions).1.devices).2⟩ := by
  rcases hstat : (getDevice rs i).touchScreen.currentVirtualKey.status with
    _ | _ | _ | _
  · -- STATUS_NONE
    simp only [consumeVirtualKeyTouches, hstat] at hchange ⊢
    split_ifs at hchange ⊢ with hc
    · cases hit with
      | some vk => exact ⟨List.mem_cons_self _ _, rfl⟩
      | none => exact absurd hstat hchange
    · exact absurd hstat hchange
  · -- STATUS_DOWN
    simp only [consumeVirtualKeyTouches, hstat] at hchange ⊢
    split_ifs at hchange ⊢ with hc1 hc2
    · exact ⟨List.mem_cons_self _ _, rfl⟩
    · exact absurd hstat hchange
    · exact ⟨List.mem_cons_self _ _, rfl⟩
  · -- STATUS_CANCELED: excluded
    exact absurd hstat hold
  · -- STATUS_UP
    simp only [consumeVirtualKeyTouches, hstat] at hchange ⊢
    split_ifs at hchange ⊢ with hc
    · cases hit with
      | some vk => exact ⟨List.mem_cons_self _ _, rfl⟩
      | none => exact absurd hstat hchange
    · exact absurd hstat hchange

/-- A reader state with one device in virtual-key DOWN and no pointer
down, so the next frame performs the DOWN→UP transition. -/
def downStateExample : ReaderState :=
  { devices := [
      { id := 1
        ignored := false
        isTouchScreen := true
        touchScreen :=
          { currentTouch := TouchData.clear
            lastTouch := TouchData.clear
            currentVirtualKey := ⟨VirtualKeyStatus.statusDown, 5, 6, 0⟩
            downTime := 0
            useBadTouchFilter := false
            useJumpyTouchFilter := false
            useAveragingTouchFilter := false } }]
    exported := ⟨5, 6⟩ }

/-- Witness for `consumeVirtualKey_refreshes_on_dispatching_transition`:
the DOWN→UP transition at the concrete state refreshes the exported
virtual-key state. -/
theorem consumeVirtualKey_refreshes_witness :
    Effect.refreshExportedVirtualKey
        ∈ (consumeVirtualKeyTouches downStateExample 0 0 0 none 0).2.2
      ∧ (consumeVirtualKeyTouches downStateExample 0 0 0 none 0).1.exported
        = ⟨(computeExportedVirtualKey (consumeVirtualKeyTouches downStateExample
              0 0 0 none 0).1.devices).1,
            (computeExportedVirtualKey (consumeVirtualKeyTouches downStateExample
              0 0 0 none 0).1.devices).2⟩ :=
  consumeVirtualKey_refreshes_on_dispatching_transition downStateExample 0 0 0
    none 0 (by decide) (by decide)

/-! ### Policy drop of a touch frame (C8) -/

lemma andNot_zero_left (m : Nat) : andNot 0 m = 0 := by
  unfold andNot
  simp

/-- C8: when the policy's `interceptTouch` actions lack the DISPATCH bit,
`onTouchScreenChanged` dispatches nothing for the frame — every effect is
at most the app-switch notification, never a motion or key event — and the
device's `lastTouch` is cleared, so that the next frame is treated as
fresh: dispatched against an empty last frame, every pointer in it goes
down. -/
theorem onTouchScreenChanged_policy_drop (rs : ReaderState) (i : Nat)
    (when : Int) (touchPolicyActions : Nat)
    (bad jumpy : TouchScreenState → TouchScreenState × Bool)
    (calcIds avg : TouchScreenState → TouchScreenState)
    (havePointerIds : Bool) (hit : Option VirtualKey) (vkPolicyActions : Nat)
    (hdrop : touchPolicyActions &&& ACTION_DISPATCH = 0) :
    (∀ e ∈ (onTouchScreenChanged rs i when touchPolicyActions bad jumpy calcIds
        avg havePointerIds hit vkPolicyActions).2, e = Effect.appSwitchComing)
      ∧ (getDevice (onTouchScreenChanged rs i when touchPolicyActions bad jumpy
          calcIds avg havePointerIds hit
          vkPolicyActions).1 i).touchScreen.lastTouch = TouchData.clear
      ∧ (∀ next : TouchData, (next.pointerCount = 0 ↔ next.idBits = 0) →
          next.idBits ≠ 0 →
          dispatchTouches next TouchData.clear
            = claimDownEvents next (natBits next.idBits) 0) := by
  have hb : (applyStandardInputDispatchPolicyActions touchPolicyActions 0).1
      = false := by
    unfold applyStandardInputDispatchPolicyActions
    simp [hdrop]
  unfold onTouchScreenChanged
  rw [if_pos hb]
  refine ⟨?_, ?_, ?_⟩
  · intro e he
    unfold applyStandardInputDispatchPolicyActions at he
    simp only [] at he
    split_ifs at he
    · rw [List.mem_singleton.mp he]
    · exact absurd he (List.not_mem_nil e)
  · by_cases hi : i < rs.devices.length
    · rw [show modifyDevice rs i
          (fun d => { d with touchScreen.lastTouch := TouchData.clear })
        = setDevice rs i
          ((fun d => { d with touchScreen.lastTouch := TouchData.clear })
            (getDevice rs i)) from rfl]
      rw [getDevice_setDevice_self rs i _ hi]
    · have he : ∀ rsx : ReaderState, rsx.devices.length ≤ i →
          getDevice rsx i = Device.empty := by
        intro rsx hx
        unfold getDevice
        exact List.getD_eq_default _ _ hx
      rw [he _ (by simpa [modifyDevice, setDevice] using Nat.le_of_not_lt hi)]
      rfl
  · intro next hinv hne
    have hchar := dispatchTouches_characterization next TouchData.clear hinv
      (by simp [TouchData.clear])
    have hd := hchar.2 (by simpa [TouchData.clear] using hne)
    rw [hd]
    rw [show TouchData.clear.idBits = 0 from rfl, andNot_zero_left,
      andNot_zero_right, natBits_zero]
    simp [claimUpEvents, Nat.zero_and]

/-- Witness for `onTouchScreenChanged_policy_drop`: policy actions
requesting only the app switch (no DISPATCH) on the initial state, and a
fresh one-pointer frame after the drop producing only its down event. -/
theorem onTouchScreenChanged_policy_drop_witness :
    ((getDevice (onTouchScreenChanged initialReaderState 0 0
        ACTION_APP_SWITCH_COMING (fun ts => (ts, false)) (fun ts => (ts, false))
        (fun ts => ts) (fun ts => ts) true none 0).1 0).touchScreen.lastTouch
      = TouchData.clear)
    ∧ dispatchTouches ⟨1, fun _ => ⟨0, 0, 0, 0, 0⟩, fun _ => 0, 1⟩
        TouchData.clear
      = claimDownEvents ⟨1, fun _ => ⟨0, 0, 0, 0, 0⟩, fun _ => 0, 1⟩
          (natBits (⟨1, fun _ => ⟨0, 0, 0, 0, 0⟩, fun _ => 0, 1⟩ :
            TouchData).idBits) 0 :=
  ⟨(onTouchScreenChanged_policy_drop initialReaderState 0 0
      ACTION_APP_SWITCH_COMING (fun ts => (ts, false)) (fun ts => (ts, false))
      (fun ts => ts) (fun ts => ts) true none 0 (by decide)).2.1,
    (onTouchScreenChanged_policy_drop initialReaderState 0 0
      ACTION_APP_SWITCH_COMING (fun ts => (ts, false)) (fun ts => (ts, false))
      (fun ts => ts) (fun ts => ts) true none 0 (by decide)).2.2
      ⟨1, fun _ => ⟨0, 0, 0, 0, 0⟩, fun _ => 0, 1⟩ (by simp) (by simp)⟩

end InputReaderModel
